import Mathlib

/-!
# SHiP++ replacement policy (`replacement/shippp/shippp.cc`)

A shallow embedding of the replacement policy and the properties of its
victim search and state update.

Conventions of the embedding
* The file-scope maps of the source (`rand_sets`, `sampler`, `rrpv_values`,
  `is_prefetch`, `SHCT`) are the fields of `State`.  A `std::map` read with
  `operator[]` is a total function whose value at an absent key is the
  value-initialised element (empty vector, all-zero array).  `sampler` is the
  one map filled with `emplace`, so its entries record presence.
* A `CACHE*` key is the `CACHE` record itself: an identity together with the
  constant geometry `NUM_SET`, `NUM_WAY` of that object.
* Every function that indexes a vector or array returns `Option`; `none`
  stands for an access outside the container (undefined behaviour in the
  source) or, for the two unbounded loops, for exhausted fuel.
* `unsigned` and `uint32_t` arithmetic is taken modulo `2^32`, `uint64_t`
  modulo `2^64`.  `NUM_SET`, `NUM_WAY` and `NUM_CPUS` are declared outside
  this file; they are natural-number parameters and the line index
  `set * NUM_WAY + way` is computed without wrap-around.
-/

namespace ShipPP

/-! ## Constants and macros -/

def maxRRPV : Int := 3
def SHCT_SIZE : Nat := 16384
def SHCT_PRIME : Nat := 16381
def SHCT_MAX : Nat := 7

/-- The constant `SAMPLER_SET = 256 * NUM_CPUS`; `NUM_CPUS` comes from the build configuration. -/
def SAMPLER_SET (NUM_CPUS : Nat) : Nat := 256 * NUM_CPUS

/-- The macro `SAT_INC(x,max)`: `(x < max) ? x + 1 : x` on `unsigned`. -/
def SAT_INC (x max : Nat) : Nat := if x < max then (x + 1) % 2 ^ 32 else x

/-- The macro `SAT_DEC(x)`: `(x > 0) ? x - 1 : x` on `unsigned`; `x - 1` is taken modulo `2^32`. -/
def SAT_DEC (x : Nat) : Nat := if x > 0 then (x + (2 ^ 32 - 1)) % 2 ^ 32 else x

/-! ## Data model -/

/-- One sampler entry, with the default member initialisers of the class. -/
structure SAMPLER_class where
  reuse : Bool := false
  signature : Nat := 0
deriving DecidableEq, Repr

/-- Modelled from the spec: the enumeration `access_type` is declared in a header that is not
part of the policy file.  The interface section lists LOAD, STORE/WRITE, PREFETCH and
other/translation; the policy only compares against `WRITE` and `PREFETCH`. -/
inductive access_type where
  | LOAD
  | RFO
  | PREFETCH
  | WRITE
  | TRANSLATION
deriving DecidableEq, Repr

/-- A cache object: its identity and its constant geometry. -/
structure CACHE where
  id : Nat
  NUM_SET : Nat
  NUM_WAY : Nat
deriving DecidableEq, Repr

/-- The file-scope state of the policy. -/
structure State where
  rand_sets : CACHE → List Nat
  sampler : CACHE → Option (List SAMPLER_class)
  rrpv_values : CACHE → List Int
  is_prefetch : CACHE → List Bool
  SHCT : CACHE × Nat → Nat → Nat

/-- The state at program start: every map is empty. -/
def State.start : State where
  rand_sets := fun _ => []
  sampler := fun _ => none
  rrpv_values := fun _ => []
  is_prefetch := fun _ => []
  SHCT := fun _ _ => 0

/-- Index of line `(set, way)` in the per-cache vectors: `set * NUM_WAY + way`. -/
def lineIdx (c : CACHE) (set way : Nat) : Nat := set * c.NUM_WAY + way

/-! ## Container accesses -/

/-- Write `v[i] = x`; undefined outside the vector. -/
def vec_set {α : Type} (v : List α) (i : Nat) (x : α) : Option (List α) :=
  if i < v.length then some (v.set i x) else none

/-- Read `::sampler[this][loc]`. -/
def sampler_read (s : State) (c : CACHE) (loc : Nat) : Option SAMPLER_class :=
  match s.sampler c with
  | none => none
  | some v => v[loc]?

/-- Update `::sampler[this][loc]` in place with `f`. -/
def sampler_modify (s : State) (c : CACHE) (loc : Nat) (f : SAMPLER_class → SAMPLER_class) :
    Option State :=
  match s.sampler c with
  | none => none
  | some v =>
    match v[loc]? with
    | none => none
    | some e => some { s with sampler := Function.update s.sampler c (some (v.set loc (f e))) }

/-- Read `::SHCT[key][sig]`. -/
def shct_read (s : State) (key : CACHE × Nat) (sig : Nat) : Option Nat :=
  if sig < SHCT_SIZE then some (s.SHCT key sig) else none

/-- Assignment `::SHCT[key][sig] = f(::SHCT[key][sig])`. -/
def shct_modify (s : State) (key : CACHE × Nat) (sig : Nat) (f : Nat → Nat) : Option State :=
  if sig < SHCT_SIZE then
    some { s with SHCT := Function.update s.SHCT key
                            (Function.update (s.SHCT key) sig (f (s.SHCT key sig))) }
  else none

/-- Read `::is_prefetch[this][i]`. -/
def prefetch_read (s : State) (c : CACHE) (i : Nat) : Option Bool :=
  (s.is_prefetch c)[i]?

/-- Assignment `::is_prefetch[this][i] = b`. -/
def prefetch_write (s : State) (c : CACHE) (i : Nat) (b : Bool) : Option State :=
  match vec_set (s.is_prefetch c) i b with
  | none => none
  | some v => some { s with is_prefetch := Function.update s.is_prefetch c v }

/-- Assignment `::rrpv_values[this][i] = x`. -/
def rrpv_write (s : State) (c : CACHE) (i : Nat) (x : Int) : Option State :=
  match vec_set (s.rrpv_values c) i x with
  | none => none
  | some v => some { s with rrpv_values := Function.update s.rrpv_values c v }

/-- Read `::rrpv_values[this][i]`. -/
def rrpv_read (s : State) (c : CACHE) (i : Nat) : Option Int :=
  (s.rrpv_values c)[i]?

/-! ## `CACHE::initialize_replacement` -/

/-- The position returned by `std::lower_bound` on an ascending vector: the number of leading
elements smaller than `val`. -/
def lower_bound (v : List Nat) (val : Nat) : Nat :=
  (v.takeWhile (fun x => decide (x < val))).length

/-- The draw `(rand_seed / 65536) % NUM_SET`. -/
def draw (rand_seed NUM_SET : Nat) : Nat := (rand_seed / 65536) % NUM_SET

/-- The collision loop of lines 50-54: while the slot found by `lower_bound` already holds
`val`, step the generator (in 64-bit arithmetic) and draw again.  Returns the seed and the value
on exit; `none` when the fuel is used up before the loop exits. -/
def retry_loop (NUM_SET : Nat) (v : List Nat) : Nat → Nat → Option (Nat × Nat)
  | 0, rand_seed =>
    let val := draw rand_seed NUM_SET
    if v[lower_bound v val]? = some val then none else some (rand_seed, val)
  | fuel + 1, rand_seed =>
    let val := draw rand_seed NUM_SET
    if v[lower_bound v val]? = some val then
      retry_loop NUM_SET v fuel ((rand_seed * 1103515245 + 12345) % 2 ^ 64)
    else some (rand_seed, val)

/-- The `for` loop of lines 46-57, run for `n` iterations from the vector `v` and seed
`rand_seed`; each iteration inserts one value at its `lower_bound` position.  The modulus
`NUM_SET = 0` is undefined as soon as an iteration runs. -/
def sample_loop (fuel NUM_SET : Nat) : Nat → List Nat → Nat → Option (List Nat)
  | 0, v, _ => some v
  | n + 1, v, rand_seed =>
    if NUM_SET = 0 then none
    else
      match retry_loop NUM_SET v fuel rand_seed with
      | none => none
      | some (seed, val) =>
        sample_loop fuel NUM_SET n
          ((v.take (lower_bound v val)) ++ val :: (v.drop (lower_bound v val))) seed

/-- The call `sampler.emplace(this, n)`: a vector of `n` default entries is stored unless the
key is already present. -/
def sampler_emplace (m : CACHE → Option (List SAMPLER_class)) (c : CACHE) (n : Nat) :
    CACHE → Option (List SAMPLER_class) :=
  match m c with
  | none => Function.update m c (some (List.replicate n {}))
  | some _ => m

/-- The member function `CACHE::initialize_replacement`; `fuel` bounds each run of the
collision loop. -/
def initialize_replacement (NUM_CPUS fuel : Nat) (c : CACHE) (s : State) : Option State :=
  match sample_loop fuel c.NUM_SET (SAMPLER_SET NUM_CPUS) (s.rand_sets c) (1103515245 + 12345) with
  | none => none
  | some v =>
    some { rand_sets := Function.update s.rand_sets c v
           sampler := sampler_emplace s.sampler c (SAMPLER_SET NUM_CPUS * c.NUM_WAY)
           rrpv_values := Function.update s.rrpv_values c
                            (List.replicate (c.NUM_SET * c.NUM_WAY) maxRRPV)
           is_prefetch := Function.update s.is_prefetch c
                            (List.replicate (c.NUM_SET * c.NUM_WAY) false)
           SHCT := s.SHCT }

/-! ## `CACHE::find_victim` -/

/-- The `while (victim == end)` loop of lines 72-77 on the lines of one set: as long as no line
holds `maxRRPV`, every line is incremented.  Returns the number of aging passes made and the
lines on exit; the fuel bounds the number of passes.  Line values are unbounded integers: a run
that would overflow an `int` in the source never finds `maxRRPV` here and runs out of fuel. -/
def find_victim_loop : Nat → List Int → Option (Nat × List Int)
  | 0, lines => if lines.indexOf maxRRPV < lines.length then some (0, lines) else none
  | fuel + 1, lines =>
    if lines.indexOf maxRRPV < lines.length then some (0, lines)
    else
      match find_victim_loop fuel (lines.map (fun x => x + 1)) with
      | none => none
      | some (passes, out) => some (passes + 1, out)

/-- The lines of set `set`: the range `[begin, end)` of lines 69-70. -/
def set_lines (c : CACHE) (s : State) (set : Nat) : List Int :=
  ((s.rrpv_values c).drop (set * c.NUM_WAY)).take c.NUM_WAY

/-- The vector `v` with the range `[b, b + w)` replaced by `out`: the in-place effect of the
loop on the lines of one set. -/
def splice (v : List Int) (b w : Nat) (out : List Int) : List Int :=
  v.take b ++ out ++ v.drop (b + w)

/-- The member function `CACHE::find_victim`: the returned way (after the cast to `uint32_t`)
and the state it leaves.  The range of the set must lie inside the vector. -/
def find_victim (fuel : Nat) (c : CACHE) (set : Nat) (s : State) : Option (Nat × State) :=
  if set * c.NUM_WAY + c.NUM_WAY ≤ (s.rrpv_values c).length then
    match find_victim_loop fuel (set_lines c s set) with
    | none => none
    | some (_, out) =>
      some ((out.indexOf maxRRPV) % 2 ^ 32,
            { s with rrpv_values := Function.update s.rrpv_values c
                                      (splice (s.rrpv_values c) (set * c.NUM_WAY) c.NUM_WAY out) })
  else none

/-! ## `CACHE::update_replacement_state` -/

/-- Lines 87-88: whether `std::find` finds `set` in `rand_sets[this]`. -/
def is_sample (c : CACHE) (s : State) (set : Nat) : Bool :=
  decide ((s.rand_sets c).indexOf set < (s.rand_sets c).length)

/-- Line 89: the sampler location `loc`, a `uint32_t`: the position of `set` in
`rand_sets[this]` times `NUM_WAY` plus `way`, or `-1` when the set is not sampled. -/
def sampler_loc (c : CACHE) (s : State) (set way : Nat) : Nat :=
  if is_sample c s set then ((s.rand_sets c).indexOf set * c.NUM_WAY + way) % 2 ^ 32
  else 4294967295

/-- Line 90: `sig`, the signature stored at `loc` (`-1` when the set is not sampled). -/
def stored_sig (c : CACHE) (s : State) (set way : Nat) : Option Nat :=
  if is_sample c s set then
    match sampler_read s c (sampler_loc c s set way) with
    | none => none
    | some e => some e.signature
  else some 4294967295

/-- Lines 120-121: the signature of the access being inserted. -/
def new_sig (ip : Nat) (type : access_type) : Nat :=
  ((if type = access_type.PREFETCH then ((ip * 2) % 2 ^ 64 + 1) % 2 ^ 64 else (ip * 2) % 2 ^ 64)
    % SHCT_PRIME) % 2 ^ 32

/-- Lines 98-99 and 111-112: saturating increment of `SHCT[fill_cpu][sig]`, then
`sampler[loc].reuse = true`. -/
def train_reuse (c : CACHE) (fill_cpu : CACHE × Nat) (loc sig : Nat) (s : State) : Option State :=
  match shct_modify s fill_cpu sig (fun x => SAT_INC x SHCT_MAX) with
  | none => none
  | some s1 => sampler_modify s1 c loc (fun e => { e with reuse := true })

/-- Lines 95-114: the body of the hit branch.  `rnd` is the value returned by `rand()`. -/
def hit_path (c : CACHE) (triggering_cpu set way : Nat) (type : access_type) (rnd : Nat)
    (sig : Nat) (s : State) : Option State :=
  let loc := sampler_loc c s set way
  let fill_cpu := (c, triggering_cpu)
  match (if type = access_type.PREFETCH then prefetch_read s c (lineIdx c set way)
         else some false) with
  | none => none
  | some true =>
    if is_sample c s set = true ∧ rnd % 100 < 5 then train_reuse c fill_cpu loc sig s
    else some s
  | some false =>
    match rrpv_write s c (lineIdx c set way) 0 with
    | none => none
    | some s1 =>
      match prefetch_read s1 c (lineIdx c set way) with
      | none => none
      | some p =>
        match (if p = true then
                 match rrpv_write s1 c (lineIdx c set way) maxRRPV with
                 | none => none
                 | some s2 => prefetch_write s2 c (lineIdx c set way) false
               else some s1) with
        | none => none
        | some s3 =>
          if is_sample c s set = true then
            match sampler_read s3 c loc with
            | none => none
            | some e => if e.reuse = false then train_reuse c fill_cpu loc sig s3 else some s3
          else some s3

/-- Lines 123-130: retirement of the outgoing sampler entry and its overwrite. -/
def retire_sampler (c : CACHE) (fill_cpu : CACHE × Nat) (loc sig nsig : Nat) (s : State) :
    Option State :=
  match sampler_read s c loc with
  | none => none
  | some e =>
    match (if e.reuse = false then shct_modify s fill_cpu sig SAT_DEC else some s) with
    | none => none
    | some s1 =>
      match sampler_modify s1 c loc (fun e => { e with reuse := false }) with
      | none => none
      | some s2 => sampler_modify s2 c loc (fun e => { e with signature := nsig })

/-- Lines 136-145: the insertion prediction. -/
def insert_rrpv (c : CACHE) (fill_cpu : CACHE × Nat) (set way nsig : Nat) (type : access_type)
    (s : State) : Option State :=
  match (if type = access_type.WRITE then some true
         else (shct_read s fill_cpu nsig).map (fun x => decide (x = 0))) with
  | none => none
  | some true => rrpv_write s c (lineIdx c set way) maxRRPV
  | some false =>
    match shct_read s fill_cpu nsig with
    | none => none
    | some x =>
      if x = SHCT_MAX then rrpv_write s c (lineIdx c set way) 0
      else rrpv_write s c (lineIdx c set way) (maxRRPV - 1)

/-- Lines 120-145: everything done on a miss. -/
def miss_path (c : CACHE) (triggering_cpu set way ip : Nat) (type : access_type)
    (sig : Nat) (s : State) : Option State :=
  let loc := sampler_loc c s set way
  let fill_cpu := (c, triggering_cpu)
  match (if is_sample c s set = true then retire_sampler c fill_cpu loc sig (new_sig ip type) s
         else some s) with
  | none => none
  | some s1 =>
    match prefetch_write s1 c (lineIdx c set way) (decide (type = access_type.PREFETCH)) with
    | none => none
    | some s2 => insert_rrpv c fill_cpu set way (new_sig ip type) type s2

/-- The member function `CACHE::update_replacement_state`.  `hit` is the `uint8_t` flag and
`rnd` the value `rand()` returns when it is called. -/
def update_replacement_state (c : CACHE) (triggering_cpu set way ip : Nat) (type : access_type)
    (hit : Nat) (rnd : Nat) (s : State) : Option State :=
  match stored_sig c s set way with
  | none => none
  | some sig =>
    if hit ≠ 0 ∧ type ≠ access_type.WRITE then hit_path c triggering_cpu set way type rnd sig s
    else miss_path c triggering_cpu set way ip type sig s

/-! ## Reachable states -/

/-- The states the policy can be in: the program start, followed by any sequence of
`initialize_replacement`, `find_victim` and `update_replacement_state` calls that return, the
latter two on a set and way of the cache they are called on. -/
inductive Reachable (NUM_CPUS : Nat) : State → Prop where
  | start : Reachable NUM_CPUS State.start
  | init (fuel : Nat) (c : CACHE) (s s' : State) :
      Reachable NUM_CPUS s → initialize_replacement NUM_CPUS fuel c s = some s' →
      Reachable NUM_CPUS s'
  | victim (fuel : Nat) (c : CACHE) (set way : Nat) (s s' : State) :
      Reachable NUM_CPUS s → set < c.NUM_SET → find_victim fuel c set s = some (way, s') →
      Reachable NUM_CPUS s'
  | update (c : CACHE) (cpu set way ip : Nat) (type : access_type) (hit rnd : Nat)
      (s s' : State) :
      Reachable NUM_CPUS s → set < c.NUM_SET → way < c.NUM_WAY →
      update_replacement_state c cpu set way ip type hit rnd s = some s' →
      Reachable NUM_CPUS s'

/-! ## Auxiliary definitions for the proofs -/

/-- The accesses of one `update_replacement_state` call stay inside their containers: the line
index lies inside both per-line vectors and, when the set is sampled, the sampler holds the
entry `e` at `loc` and the signature of `e` indexes the SHCT. -/
def update_defined (c : CACHE) (s : State) (set way : Nat) (e : SAMPLER_class) : Prop :=
  lineIdx c set way < (s.rrpv_values c).length ∧
  lineIdx c set way < (s.is_prefetch c).length ∧
  (is_sample c s set = true →
    sampler_read s c (sampler_loc c s set way) = some e ∧ e.signature < SHCT_SIZE)

/-- The state after a successful `rrpv_write`. -/
def put_rrpv (s : State) (c : CACHE) (i : Nat) (x : Int) : State :=
  { s with rrpv_values := Function.update s.rrpv_values c ((s.rrpv_values c).set i x) }

/-- The state after a successful `prefetch_write`. -/
def put_prefetch (s : State) (c : CACHE) (i : Nat) (b : Bool) : State :=
  { s with is_prefetch := Function.update s.is_prefetch c ((s.is_prefetch c).set i b) }

/-- The state after a successful `sampler_modify` that stores `e`. -/
def put_sampler (s : State) (c : CACHE) (loc : Nat) (e : SAMPLER_class) : State :=
  { s with sampler := Function.update s.sampler c ((s.sampler c).map (fun v => v.set loc e)) }

/-- The state after a successful `shct_modify` that stores `x`. -/
def put_shct (s : State) (key : CACHE × Nat) (sig x : Nat) : State :=
  { s with SHCT := Function.update s.SHCT key (Function.update (s.SHCT key) sig x) }

/-- The value chosen by lines 136-145 for a counter value `ctr`. -/
def insertion (type : access_type) (ctr : Nat) : Int :=
  if type = access_type.WRITE ∨ ctr = 0 then maxRRPV
  else if ctr = SHCT_MAX then 0 else maxRRPV - 1

/-- The state left by the miss path, as a composition of writes. -/
def miss_result (c : CACHE) (cpu set way ip : Nat) (type : access_type) (e : SAMPLER_class)
    (s : State) : State :=
  let s1 :=
    if is_sample c s set = true then
      put_sampler
        (if e.reuse = false then
          put_shct s (c, cpu) e.signature (SAT_DEC (s.SHCT (c, cpu) e.signature))
         else s)
        c (sampler_loc c s set way) ⟨false, new_sig ip type⟩
    else s
  let s2 := put_prefetch s1 c (lineIdx c set way) (decide (type = access_type.PREFETCH))
  put_rrpv s2 c (lineIdx c set way) (insertion type (s2.SHCT (c, cpu) (new_sig ip type)))

/-- The state left by the second hit branch (lines 103-113). -/
def hit_demand_result (c : CACHE) (cpu set way : Nat) (e : SAMPLER_class) (b : Bool)
    (s : State) : State :=
  let s1 := put_rrpv s c (lineIdx c set way) 0
  let s3 :=
    if b = true then put_prefetch (put_rrpv s1 c (lineIdx c set way) maxRRPV) c
      (lineIdx c set way) false
    else s1
  if is_sample c s set = true ∧ e.reuse = false then
    put_sampler
      (put_shct s3 (c, cpu) e.signature (SAT_INC (s3.SHCT (c, cpu) e.signature) SHCT_MAX))
      c (sampler_loc c s set way) { e with reuse := true }
  else s3

/-- The state left by the first hit branch (lines 96-100). -/
def hit_prefetch_result (c : CACHE) (cpu set way rnd : Nat) (e : SAMPLER_class)
    (s : State) : State :=
  if is_sample c s set = true ∧ rnd % 100 < 5 then
    put_sampler
      (put_shct s (c, cpu) e.signature (SAT_INC (s.SHCT (c, cpu) e.signature) SHCT_MAX))
      c (sampler_loc c s set way) { e with reuse := true }
  else s

/-- Every primitive write made by `update_replacement_state` on line `i` of cache `c`
keeps `I`. -/
structure Preserved (I : State → Prop) (c : CACHE) (i : Nat) : Prop where
  shct_inc : ∀ s key sig s', shct_modify s key sig (fun x => SAT_INC x SHCT_MAX) = some s' →
    I s → I s'
  shct_dec : ∀ s key sig s', shct_modify s key sig SAT_DEC = some s' → I s → I s'
  reuse : ∀ s loc b s',
    sampler_modify s c loc (fun e => { e with reuse := b }) = some s' → I s → I s'
  sig : ∀ s loc ip type s',
    sampler_modify s c loc (fun e => { e with signature := new_sig ip type }) = some s' →
    I s → I s'
  prefetch : ∀ s b s', prefetch_write s c i b = some s' → I s → I s'
  rrpv : ∀ s x s', (x = 0 ∨ x = maxRRPV ∨ x = maxRRPV - 1) →
    rrpv_write s c i x = some s' → I s → I s'

/-! ## Invariants and frames -/

/-- Every line of every cache holds a value in `[0, maxRRPV]`. -/
def rrpv_in_range (s : State) : Prop :=
  ∀ c x, x ∈ s.rrpv_values c → 0 ≤ x ∧ x ≤ maxRRPV

/-- Every counter of every key holds a value in `[0, SHCT_MAX]`. -/
def shct_in_range (s : State) : Prop :=
  ∀ key sig, s.SHCT key sig ≤ SHCT_MAX

/-- The calls that leave line `(set, way)` of cache `c` alone: updates of any other line and
victim searches in any other set. -/
inductive Untouched (c : CACHE) (set way : Nat) : State → State → Prop where
  | refl (s : State) : Untouched c set way s s
  | update (c' : CACHE) (cpu set' way' ip : Nat) (type : access_type) (hit rnd : Nat)
      (s s' s'' : State) :
      Untouched c set way s s' → way' < c'.NUM_WAY → (c' ≠ c ∨ set' ≠ set ∨ way' ≠ way) →
      update_replacement_state c' cpu set' way' ip type hit rnd s' = some s'' →
      Untouched c set way s s''
  | victim (fuel : Nat) (c' : CACHE) (set' way' : Nat) (s s' s'' : State) :
      Untouched c set way s s' → (c' ≠ c ∨ set' ≠ set) →
      find_victim fuel c' set' s' = some (way', s'') →
      Untouched c set way s s''

/-! ## Example states -/

/-- A cache of two sets of four ways. -/
def c1 : CACHE := ⟨0, 2, 4⟩

/-- A state that only holds line values. -/
def s1 : State := { State.start with rrpv_values := fun _ => [0, 1, 2, 1, 2, 0, 2, 1] }

/-- A state in which set 1 of `c1` is sampled. -/
def ex_state : State where
  rand_sets := fun _ => [1]
  sampler := fun _ => some [⟨false, 6⟩, ⟨true, 6⟩, ⟨false, 0⟩, ⟨false, 10⟩]
  rrpv_values := fun _ => [0, 1, 2, 1, 2, 0, 2, 0]
  is_prefetch := fun _ => [false, false, true, false, true, false, false, false]
  SHCT := fun _ sig => if sig = 6 then 7 else if sig = 10 then 3 else 0

/-- A cache of 512 sets of two ways. -/
def c2 : CACHE := ⟨0, 512, 2⟩

/-- One training round on line `(1, 0)` of `c2`: a load miss fill followed by a load hit. -/
def fill_and_hit (s : State) : Option State :=
  (update_replacement_state c2 0 1 0 3 access_type.LOAD 0 0 s).bind fun s' =>
  update_replacement_state c2 0 1 0 3 access_type.LOAD 1 0 s'

/-- The training round repeated `n` times. -/
def train : Nat → State → Option State
  | 0, s => some s
  | n + 1, s => (fill_and_hit s).bind (train n)

/-- A run from the program start on a single core: initialisation of `c2`, seven training
rounds on line `(1, 0)`, a load hit on line `(1, 1)`, and a victim search in set 1. -/
def example_run : Option State :=
  (initialize_replacement 1 64 c2 State.start).bind fun s0 =>
  (train 7 s0).bind fun s1 =>
  (update_replacement_state c2 0 1 1 3 access_type.LOAD 1 0 s1).bind fun s2 =>
  (find_victim 3 c2 1 s2).map fun r => r.2

/-- The state the example run ends in. -/
@[irreducible]
def example_final : State := example_run.getD State.start

/-- The facts about the end of the example run that the later statements use. -/
def example_facts (s : State) : Prop :=
  set_lines c2 s 1 = [3, 3] ∧ s.SHCT (c2, 0) 6 = 7 ∧ is_sample c2 s 1 = true ∧
  sampler_loc c2 s 1 0 = 0 ∧ sampler_read s c2 0 = some ⟨true, 6⟩ ∧
  prefetch_read s c2 (lineIdx c2 1 0) = some false ∧
  lineIdx c2 1 0 < (s.rrpv_values c2).length

instance example_facts_decidable (s : State) : Decidable (example_facts s) := by
  unfold example_facts; infer_instance

/-! ## Definitions for the sampled-set selection, the signatures and the sampler -/

/-- Line 120: the tagged instruction pointer `use_PC`, a `uint64_t`. -/
def use_PC (ip : Nat) (type : access_type) : Nat :=
  if type = access_type.PREFETCH then ((ip * 2) % 2 ^ 64 + 1) % 2 ^ 64 else (ip * 2) % 2 ^ 64

/-- The vector after `insert(loc, val)` at the `lower_bound` position. -/
def sorted_insert (v : List Nat) (val : Nat) : List Nat :=
  v.take (lower_bound v val) ++ val :: v.drop (lower_bound v val)

/-- The loop invariant of the sampled-set selection: ascending without repeats, every entry
below `NUM_SET`. -/
def sample_invariant (NUM_SET : Nat) (v : List Nat) : Prop :=
  v.Pairwise (fun a b => a < b) ∧ ∀ x ∈ v, x < NUM_SET

/-- Every stored sampler signature is below `SHCT_PRIME`. -/
def sigs_in_range (s : State) : Prop :=
  ∀ c loc e, sampler_read s c loc = some e → e.signature < SHCT_PRIME

/-- The state right after the initialisation of `c2` at the program start. -/
@[irreducible]
def example_init : State := (initialize_replacement 1 64 c2 State.start).getD State.start

/-- A second run from the program start on a single core: initialisation of `c2`, a prefetch
miss fill of line `(1, 0)`, a prefetch hit on it whose draw trains the predictor, and a
prefetch miss fill of line `(1, 1)`. -/
def example_run_b : Option State :=
  (initialize_replacement 1 64 c2 State.start).bind fun s0 =>
  (update_replacement_state c2 0 1 0 0 access_type.PREFETCH 0 0 s0).bind fun s1 =>
  (update_replacement_state c2 0 1 0 0 access_type.PREFETCH 1 0 s1).bind fun s2 =>
  update_replacement_state c2 0 1 1 0 access_type.PREFETCH 0 0 s2

/-- The state the second example run ends in. -/
@[irreducible]
def example_b : State := example_run_b.getD State.start

/-- The facts about the end of the second example run that the later statements use. -/
def example_b_facts (s : State) : Prop :=
  is_sample c2 s 1 = true ∧ sampler_loc c2 s 1 0 = 0 ∧ sampler_loc c2 s 1 1 = 1 ∧
  sampler_read s c2 0 = some ⟨true, 1⟩ ∧ sampler_read s c2 1 = some ⟨false, 1⟩ ∧
  s.SHCT (c2, 0) 1 = 1 ∧
  prefetch_read s c2 (lineIdx c2 1 0) = some true ∧
  prefetch_read s c2 (lineIdx c2 1 1) = some true ∧
  lineIdx c2 1 0 < (s.rrpv_values c2).length ∧ lineIdx c2 1 1 < (s.rrpv_values c2).length

instance example_b_facts_decidable (s : State) : Decidable (example_b_facts s) := by
  unfold example_b_facts; infer_instance

/-! ## Lists -/

theorem indexOf_first (a : Int) (l : List Int) :
    ∀ j, j < l.indexOf a → l[j]? ≠ some a := by
  induction l with
  | nil => intro j hj; simp at hj
  | cons b t ih =>
    intro j hj
    rw [List.indexOf_cons] at hj
    by_cases hb : b = a
    · simp [hb] at hj
    · have hb2 : (b == a) = false := by simpa using hb
      rw [hb2] at hj
      cases j with
      | zero => simpa using hb
      | succ k =>
        have : k < t.indexOf a := by simpa using hj
        simpa using ih k this

theorem indexOf_map_add (a d : Int) (l : List Int) :
    (l.map (fun x => x + d)).indexOf (a + d) = l.indexOf a := by
  induction l with
  | nil => simp
  | cons b t ih =>
    rw [List.map_cons, List.indexOf_cons, List.indexOf_cons, ih]
    by_cases hb : b = a
    · simp [hb]
    · have h1 : (b == a) = false := by simpa using hb
      have h2 : (b + d == a + d) = false := by simpa using hb
      rw [h1, h2]

theorem exists_max (l : List Int) (h : l ≠ []) : ∃ m ∈ l, ∀ x ∈ l, x ≤ m := by
  induction l with
  | nil => exact absurd rfl h
  | cons b t ih =>
    by_cases ht : t = []
    · subst ht; exact ⟨b, by simp, by simp⟩
    · obtain ⟨m, hm, hmax⟩ := ih ht
      by_cases hbm : b ≤ m
      · refine ⟨m, List.mem_cons_of_mem _ hm, ?_⟩
        intro x hx
        rcases List.mem_cons.mp hx with rfl | hx
        · exact hbm
        · exact hmax x hx
      · refine ⟨b, List.mem_cons_self _ _, ?_⟩
        intro x hx
        rcases List.mem_cons.mp hx with rfl | hx
        · exact le_refl _
        · have := hmax x hx; omega

theorem find_victim_loop_spec (d : Nat) :
    ∀ (fuel : Nat) (lines : List Int), d ≤ fuel →
      (∀ x ∈ lines, x + d ≤ maxRRPV) → (∃ x ∈ lines, x + d = maxRRPV) →
      find_victim_loop fuel lines = some (d, lines.map (fun x => x + (d : Int))) := by
  induction d with
  | zero =>
    intro fuel lines _ _ hex
    obtain ⟨x, hx, hx3⟩ := hex
    have hmem : maxRRPV ∈ lines := by
      have : x = maxRRPV := by simpa using hx3
      exact this ▸ hx
    have hlt : lines.indexOf maxRRPV < lines.length := List.indexOf_lt_length.mpr hmem
    cases fuel <;> simp [find_victim_loop, hlt]
  | succ d ih =>
    intro fuel lines hfuel hall hex
    have hnot : ¬ lines.indexOf maxRRPV < lines.length := by
      intro hlt
      have hmem := List.indexOf_lt_length.mp hlt
      have := hall _ hmem
      push_cast at this
      omega
    cases fuel with
    | zero => omega
    | succ f =>
      have hall2 : ∀ x ∈ lines.map (fun x => x + 1), x + d ≤ maxRRPV := by
        intro x hx
        obtain ⟨y, hy, rfl⟩ := List.mem_map.mp hx
        have := hall y hy
        push_cast at this
        omega
      have hex2 : ∃ x ∈ lines.map (fun x => x + 1), x + d = maxRRPV := by
        obtain ⟨y, hy, hy3⟩ := hex
        refine ⟨y + 1, List.mem_map.mpr ⟨y, hy, rfl⟩, ?_⟩
        push_cast at hy3
        omega
      have hrec := ih f (lines.map (fun x => x + 1)) (by omega) hall2 hex2
      simp only [find_victim_loop, if_neg hnot, hrec, List.map_map]
      congr 2
      apply List.map_congr_left
      intro x _
      simp only [Function.comp]
      push_cast
      omega


theorem set_lines_length (c : CACHE) (s : State) (set : Nat)
    (hb : set * c.NUM_WAY + c.NUM_WAY ≤ (s.rrpv_values c).length) :
    (set_lines c s set).length = c.NUM_WAY := by
  simp only [set_lines, List.length_take, List.length_drop]
  omega

theorem set_range_le (c : CACHE) (s : State) (set : Nat)
    (hlen : (s.rrpv_values c).length = c.NUM_SET * c.NUM_WAY) (hset : set < c.NUM_SET) :
    set * c.NUM_WAY + c.NUM_WAY ≤ (s.rrpv_values c).length := by
  rw [hlen]
  calc set * c.NUM_WAY + c.NUM_WAY = (set + 1) * c.NUM_WAY := by ring
    _ ≤ c.NUM_SET * c.NUM_WAY := Nat.mul_le_mul_right _ hset

theorem find_victim_result (fuel : Nat) (c : CACHE) (set : Nat) (s : State) (m : Int)
    (hb : set * c.NUM_WAY + c.NUM_WAY ≤ (s.rrpv_values c).length)
    (h32 : c.NUM_WAY ≤ 2 ^ 32)
    (hm : m ∈ set_lines c s set) (hmax : ∀ x ∈ set_lines c s set, x ≤ m)
    (hm3 : m ≤ maxRRPV) (hfuel : (maxRRPV - m).toNat ≤ fuel) :
    find_victim_loop fuel (set_lines c s set)
        = some ((maxRRPV - m).toNat, (set_lines c s set).map (fun x => x + (maxRRPV - m))) ∧
    find_victim fuel c set s =
      some ((set_lines c s set).indexOf m,
            { s with rrpv_values := Function.update s.rrpv_values c
                                      (splice (s.rrpv_values c) (set * c.NUM_WAY) c.NUM_WAY
                                        ((set_lines c s set).map (fun x => x + (maxRRPV - m)))) }) := by
  have hd : ((maxRRPV - m).toNat : Int) = maxRRPV - m := Int.toNat_of_nonneg (by omega)
  have hloop := find_victim_loop_spec (maxRRPV - m).toNat fuel (set_lines c s set) hfuel
    (by intro x hx; have := hmax x hx; rw [hd]; omega) ⟨m, hm, by rw [hd]; omega⟩
  rw [hd] at hloop
  refine ⟨hloop, ?_⟩
  have hidx : ((set_lines c s set).map (fun x => x + (maxRRPV - m))).indexOf maxRRPV
      = (set_lines c s set).indexOf m := by
    have := indexOf_map_add m (maxRRPV - m) (set_lines c s set)
    rwa [show m + (maxRRPV - m) = maxRRPV by omega] at this
  have hlt : (set_lines c s set).indexOf m < 2 ^ 32 := by
    have h1 := List.indexOf_lt_length.mpr hm
    rw [set_lines_length c s set hb] at h1
    omega
  simp only [find_victim, if_pos hb, hloop, hidx, Nat.mod_eq_of_lt hlt]


theorem splice_lines (v : List Int) (b w : Nat) (out : List Int)
    (hb : b + w ≤ v.length) (hout : out.length = w) :
    ((splice v b w out).drop b).take w = out := by
  have h1 : (v.take b).length = b := by rw [List.length_take]; omega
  unfold splice
  rw [List.append_assoc, List.drop_left' h1, List.take_left' hout]

theorem set_lines_find_victim (c : CACHE) (s : State) (set : Nat) (out : List Int)
    (hb : set * c.NUM_WAY + c.NUM_WAY ≤ (s.rrpv_values c).length)
    (hout : out.length = c.NUM_WAY) :
    set_lines c { s with rrpv_values := Function.update s.rrpv_values c
                                          (splice (s.rrpv_values c) (set * c.NUM_WAY)
                                            c.NUM_WAY out) } set = out := by
  simp only [set_lines, Function.update_same]
  exact splice_lines _ _ _ _ hb hout

/-- C1. On a set of at least one way whose lines all hold a value in `[0, maxRRPV]`,
`find_victim` returns (given fuel for three aging passes) the lowest way among the lines holding
the maximum `m` of the set before the call; that way is below `NUM_WAY`, its line holds
`maxRRPV` after the call, and every line of the set has been raised by `maxRRPV - m`.
The geometry hypotheses say that the line vector has its initialised size and that the way
count fits the `uint32_t` return type. -/
theorem find_victim_first_max (fuel : Nat) (c : CACHE) (set : Nat) (s : State)
    (hW : 1 ≤ c.NUM_WAY) (h32 : c.NUM_WAY ≤ 2 ^ 32)
    (hlen : (s.rrpv_values c).length = c.NUM_SET * c.NUM_WAY) (hset : set < c.NUM_SET)
    (hr : ∀ x ∈ set_lines c s set, 0 ≤ x ∧ x ≤ maxRRPV) (hfuel : 3 ≤ fuel) :
    ∃ way s' m, find_victim fuel c set s = some (way, s') ∧
      m ∈ set_lines c s set ∧ (∀ x ∈ set_lines c s set, x ≤ m) ∧
      way < c.NUM_WAY ∧
      (set_lines c s set)[way]? = some m ∧
      (∀ j, j < way → (set_lines c s set)[j]? ≠ some m) ∧
      (set_lines c s' set)[way]? = some maxRRPV ∧
      set_lines c s' set = (set_lines c s set).map (fun x => x + (maxRRPV - m)) := by
  have hb := set_range_le c s set hlen hset
  have hlines := set_lines_length c s set hb
  have hne : set_lines c s set ≠ [] := by
    intro h; rw [h] at hlines; simp at hlines; omega
  obtain ⟨m, hm, hmax⟩ := exists_max _ hne
  have hm3 := (hr m hm)
  have hres := (find_victim_result fuel c set s m hb h32 hm hmax hm3.2
    (by have := hm3.1; simp only [maxRRPV] at *; omega)).2
  have hidx : (set_lines c s set).indexOf m < (set_lines c s set).length :=
    List.indexOf_lt_length.mpr hm
  have hpost := set_lines_find_victim c s set
    ((set_lines c s set).map (fun x => x + (maxRRPV - m))) hb (by simpa using hlines)
  refine ⟨_, _, m, hres, hm, hmax, by omega, ?_, indexOf_first m _, ?_, hpost⟩
  · rw [List.getElem?_eq_getElem hidx]
    exact congrArg some (List.indexOf_get hidx)
  · rw [hpost, List.getElem?_map, List.getElem?_eq_getElem hidx]
    have : (set_lines c s set)[(set_lines c s set).indexOf m] = m := List.indexOf_get hidx
    simp [this]

/-- The statement of C1 on set 1 of `s1`. -/
theorem find_victim_first_max_witness :
    ∃ way s' m, find_victim 3 c1 1 s1 = some (way, s') ∧
      m ∈ set_lines c1 s1 1 ∧ (∀ x ∈ set_lines c1 s1 1, x ≤ m) ∧
      way < c1.NUM_WAY ∧
      (set_lines c1 s1 1)[way]? = some m ∧
      (∀ j, j < way → (set_lines c1 s1 1)[j]? ≠ some m) ∧
      (set_lines c1 s' 1)[way]? = some maxRRPV ∧
      set_lines c1 s' 1 = (set_lines c1 s1 1).map (fun x => x + (maxRRPV - m)) :=
  find_victim_first_max 3 c1 1 s1 (by decide) (by decide) (by decide) (by decide) (by decide)
    (by decide)

/-- C2. On a set of at least one way whose lines all hold a value in `[0, maxRRPV]`, the
find-or-age loop exits after at most `maxRRPV = 3` aging passes: with fuel for three passes it
returns, the number of passes it made is at most `maxRRPV`, the lines on exit are the lines on
entry raised by that number, and `find_victim` itself returns. -/
theorem find_victim_loop_terminates (fuel : Nat) (c : CACHE) (set : Nat) (s : State)
    (hW : 1 ≤ c.NUM_WAY)
    (hlen : (s.rrpv_values c).length = c.NUM_SET * c.NUM_WAY) (hset : set < c.NUM_SET)
    (hr : ∀ x ∈ set_lines c s set, 0 ≤ x ∧ x ≤ maxRRPV) (hfuel : 3 ≤ fuel) :
    ∃ passes out, find_victim_loop fuel (set_lines c s set) = some (passes, out) ∧
      (passes : Int) ≤ maxRRPV ∧
      out = (set_lines c s set).map (fun x => x + (passes : Int)) ∧
      ∃ r, find_victim fuel c set s = some r := by
  have hb := set_range_le c s set hlen hset
  have hlines := set_lines_length c s set hb
  have hne : set_lines c s set ≠ [] := by
    intro h; rw [h] at hlines; simp at hlines; omega
  obtain ⟨m, hm, hmax⟩ := exists_max _ hne
  have hm3 := (hr m hm)
  have hd : ((maxRRPV - m).toNat : Int) = maxRRPV - m := Int.toNat_of_nonneg (by omega)
  have hloop := find_victim_loop_spec (maxRRPV - m).toNat fuel (set_lines c s set)
    (by have := hm3.1; simp only [maxRRPV] at *; omega)
    (by intro x hx; have := hmax x hx; rw [hd]; omega) ⟨m, hm, by rw [hd]; omega⟩
  refine ⟨_, _, hloop, by rw [hd]; omega, rfl, ?_⟩
  simp only [find_victim, if_pos hb, hloop]
  exact ⟨_, rfl⟩

/-- The statement of C2 on set 0 of `s1`. -/
theorem find_victim_loop_terminates_witness :
    ∃ passes out, find_victim_loop 3 (set_lines c1 s1 0) = some (passes, out) ∧
      (passes : Int) ≤ maxRRPV ∧
      out = (set_lines c1 s1 0).map (fun x => x + (passes : Int)) ∧
      ∃ r, find_victim 3 c1 0 s1 = some r :=
  find_victim_loop_terminates 3 c1 0 s1 (by decide) (by decide) (by decide) (by decide)
    (by decide)

theorem indexOf_set_first (a : Int) :
    ∀ (l : List Int) (way : Nat), way < l.length → (∀ j, j < way → l[j]? ≠ some a) →
      (l.set way a).indexOf a = way := by
  intro l
  induction l with
  | nil => intro way h; simp at h
  | cons b t ih =>
    intro way hway hne
    cases way with
    | zero => simp
    | succ k =>
      have hb : b ≠ a := by simpa using hne 0 (by omega)
      rw [List.set_cons_succ, List.indexOf_cons_ne _ hb]
      congr 1
      apply ih k (by simpa using hway)
      intro j hj
      simpa using hne (j + 1) (by omega)

theorem set_lines_getElem (c : CACHE) (s : State) (set j : Nat) (hj : j < c.NUM_WAY) :
    (set_lines c s set)[j]? = rrpv_read s c (lineIdx c set j) := by
  simp [set_lines, List.getElem?_take, hj, List.getElem?_drop, rrpv_read, lineIdx]

theorem splice_self (v : List Int) (b w : Nat) :
    splice v b w ((v.drop b).take w) = v := by
  unfold splice
  rw [List.append_assoc, ← List.drop_drop, List.take_append_drop, List.take_append_drop]

theorem find_victim_loop_found (fuel : Nat) (lines : List Int) (h : maxRRPV ∈ lines) :
    find_victim_loop fuel lines = some (0, lines) := by
  have hlt : lines.indexOf maxRRPV < lines.length := List.indexOf_lt_length.mpr h
  cases fuel <;> simp [find_victim_loop, hlt]

theorem State.update_rrpv_self (s : State) (c : CACHE) :
    { s with rrpv_values := Function.update s.rrpv_values c (s.rrpv_values c) } = s := by
  cases s
  simp

/-! ## Writes and reads of the state -/

theorem rrpv_write_eq {s : State} {c : CACHE} {i : Nat} (x : Int)
    (h : i < (s.rrpv_values c).length) : rrpv_write s c i x = some (put_rrpv s c i x) := by
  simp [rrpv_write, vec_set, h, put_rrpv]

theorem prefetch_write_eq {s : State} {c : CACHE} {i : Nat} (b : Bool)
    (h : i < (s.is_prefetch c).length) :
    prefetch_write s c i b = some (put_prefetch s c i b) := by
  simp [prefetch_write, vec_set, h, put_prefetch]

theorem shct_modify_eq {s : State} {key : CACHE × Nat} {sig : Nat} (f : Nat → Nat)
    (h : sig < SHCT_SIZE) :
    shct_modify s key sig f = some (put_shct s key sig (f (s.SHCT key sig))) := by
  simp [shct_modify, h, put_shct]

theorem shct_read_eq {s : State} {key : CACHE × Nat} {sig : Nat} (h : sig < SHCT_SIZE) :
    shct_read s key sig = some (s.SHCT key sig) := by
  simp [shct_read, h]

theorem sampler_modify_eq {s : State} {c : CACHE} {loc : Nat} {e : SAMPLER_class}
    (f : SAMPLER_class → SAMPLER_class) (h : sampler_read s c loc = some e) :
    sampler_modify s c loc f = some (put_sampler s c loc (f e)) := by
  unfold sampler_read at h
  cases hv : s.sampler c with
  | none => rw [hv] at h; exact absurd h (by simp)
  | some v =>
    rw [hv] at h
    simp only at h
    simp [sampler_modify, hv, h, put_sampler]

theorem sampler_read_put_sampler {s : State} {c : CACHE} {loc : Nat} {e : SAMPLER_class}
    (e' : SAMPLER_class) (h : sampler_read s c loc = some e) :
    sampler_read (put_sampler s c loc e') c loc = some e' := by
  unfold sampler_read at h
  cases hv : s.sampler c with
  | none => rw [hv] at h; exact absurd h (by simp)
  | some v =>
    rw [hv] at h
    simp only at h
    have hlt : loc < v.length := by
      by_contra hge
      rw [List.getElem?_eq_none (by omega)] at h
      exact absurd h (by simp)
    simp [sampler_read, put_sampler, hv, hlt]

theorem put_sampler_twice (s : State) (c : CACHE) (loc : Nat) (e1 e2 : SAMPLER_class) :
    put_sampler (put_sampler s c loc e1) c loc e2 = put_sampler s c loc e2 := by
  unfold put_sampler
  cases hv : s.sampler c <;> simp [hv]

@[simp]
theorem rrpv_read_put_rrpv {s : State} {c : CACHE} {i : Nat} (x : Int)
    (h : i < (s.rrpv_values c).length) : rrpv_read (put_rrpv s c i x) c i = some x := by
  simp [rrpv_read, put_rrpv, h]

@[simp]
theorem prefetch_read_put_prefetch {s : State} {c : CACHE} {i : Nat} (b : Bool)
    (h : i < (s.is_prefetch c).length) :
    prefetch_read (put_prefetch s c i b) c i = some b := by
  simp [prefetch_read, put_prefetch, h]

@[simp]
theorem length_put_rrpv (s : State) (c c' : CACHE) (i : Nat) (x : Int) :
    ((put_rrpv s c i x).rrpv_values c').length = (s.rrpv_values c').length := by
  by_cases h : c' = c
  · subst h; simp [put_rrpv]
  · simp [put_rrpv, Function.update_noteq h]

@[simp]
theorem length_put_prefetch (s : State) (c c' : CACHE) (i : Nat) (b : Bool) :
    ((put_prefetch s c i b).is_prefetch c').length = (s.is_prefetch c').length := by
  by_cases h : c' = c
  · subst h; simp [put_prefetch]
  · simp [put_prefetch, Function.update_noteq h]

@[simp]
theorem put_shct_same (s : State) (key : CACHE × Nat) (sig x : Nat) :
    (put_shct s key sig x).SHCT key sig = x := by
  simp [put_shct]

theorem put_shct_other (s : State) (key key' : CACHE × Nat) (sig sig' x : Nat)
    (h : key' ≠ key ∨ sig' ≠ sig) :
    (put_shct s key sig x).SHCT key' sig' = s.SHCT key' sig' := by
  unfold put_shct
  by_cases hk : key' = key
  · subst hk
    have hsig : sig' ≠ sig := by
      rcases h with h | h
      · exact absurd rfl h
      · exact h
    simp [Function.update_noteq hsig]
  · simp [Function.update_noteq hk]


@[simp]
theorem sampler_read_put_rrpv (s : State) (c c' : CACHE) (i loc : Nat) (x : Int) :
    sampler_read (put_rrpv s c i x) c' loc = sampler_read s c' loc := rfl
@[simp]
theorem sampler_read_put_prefetch (s : State) (c c' : CACHE) (i loc : Nat) (b : Bool) :
    sampler_read (put_prefetch s c i b) c' loc = sampler_read s c' loc := rfl
@[simp]
theorem sampler_read_put_shct (s : State) (key : CACHE × Nat) (c' : CACHE)
    (sig x loc : Nat) : sampler_read (put_shct s key sig x) c' loc = sampler_read s c' loc := rfl
@[simp]
theorem prefetch_read_put_rrpv (s : State) (c c' : CACHE) (i j : Nat) (x : Int) :
    prefetch_read (put_rrpv s c i x) c' j = prefetch_read s c' j := rfl
@[simp]
theorem prefetch_read_put_sampler (s : State) (c c' : CACHE) (loc j : Nat)
    (e : SAMPLER_class) : prefetch_read (put_sampler s c loc e) c' j = prefetch_read s c' j := rfl
@[simp]
theorem prefetch_read_put_shct (s : State) (key : CACHE × Nat) (c' : CACHE)
    (sig x j : Nat) : prefetch_read (put_shct s key sig x) c' j = prefetch_read s c' j := rfl
@[simp]
theorem rrpv_read_put_prefetch (s : State) (c c' : CACHE) (i j : Nat) (b : Bool) :
    rrpv_read (put_prefetch s c i b) c' j = rrpv_read s c' j := rfl
@[simp]
theorem rrpv_read_put_sampler (s : State) (c c' : CACHE) (loc j : Nat)
    (e : SAMPLER_class) : rrpv_read (put_sampler s c loc e) c' j = rrpv_read s c' j := rfl
@[simp]
theorem rrpv_read_put_shct (s : State) (key : CACHE × Nat) (c' : CACHE)
    (sig x j : Nat) : rrpv_read (put_shct s key sig x) c' j = rrpv_read s c' j := rfl
@[simp]
theorem SHCT_put_rrpv (s : State) (c : CACHE) (i : Nat) (x : Int) :
    (put_rrpv s c i x).SHCT = s.SHCT := rfl
@[simp]
theorem SHCT_put_prefetch (s : State) (c : CACHE) (i : Nat) (b : Bool) :
    (put_prefetch s c i b).SHCT = s.SHCT := rfl
@[simp]
theorem SHCT_put_sampler (s : State) (c : CACHE) (loc : Nat) (e : SAMPLER_class) :
    (put_sampler s c loc e).SHCT = s.SHCT := rfl
@[simp]
theorem rrpv_values_put_prefetch (s : State) (c : CACHE) (i : Nat) (b : Bool) :
    (put_prefetch s c i b).rrpv_values = s.rrpv_values := rfl
@[simp]
theorem rrpv_values_put_sampler (s : State) (c : CACHE) (loc : Nat)
    (e : SAMPLER_class) : (put_sampler s c loc e).rrpv_values = s.rrpv_values := rfl
@[simp]
theorem rrpv_values_put_shct (s : State) (key : CACHE × Nat) (sig x : Nat) :
    (put_shct s key sig x).rrpv_values = s.rrpv_values := rfl
@[simp]
theorem is_prefetch_put_rrpv (s : State) (c : CACHE) (i : Nat) (x : Int) :
    (put_rrpv s c i x).is_prefetch = s.is_prefetch := rfl
@[simp]
theorem is_prefetch_put_sampler (s : State) (c : CACHE) (loc : Nat)
    (e : SAMPLER_class) : (put_sampler s c loc e).is_prefetch = s.is_prefetch := rfl
@[simp]
theorem is_prefetch_put_shct (s : State) (key : CACHE × Nat) (sig x : Nat) :
    (put_shct s key sig x).is_prefetch = s.is_prefetch := rfl

theorem new_sig_lt (ip : Nat) (type : access_type) : new_sig ip type < SHCT_PRIME := by
  unfold new_sig
  exact lt_of_le_of_lt (Nat.mod_le _ _) (Nat.mod_lt _ (by decide))

theorem new_sig_lt_size (ip : Nat) (type : access_type) : new_sig ip type < SHCT_SIZE :=
  lt_trans (new_sig_lt ip type) (by decide)

theorem train_reuse_eq {c : CACHE} {key : CACHE × Nat} {loc : Nat} {s : State}
    {e : SAMPLER_class} (he : sampler_read s c loc = some e) (hsig : e.signature < SHCT_SIZE) :
    train_reuse c key loc e.signature s =
      some (put_sampler
        (put_shct s key e.signature (SAT_INC (s.SHCT key e.signature) SHCT_MAX))
        c loc { e with reuse := true }) := by
  unfold train_reuse
  rw [shct_modify_eq _ hsig]
  simp only
  rw [sampler_modify_eq _ (by simpa using he)]

theorem retire_sampler_eq {c : CACHE} {key : CACHE × Nat} {loc : Nat} (nsig : Nat) {s : State}
    {e : SAMPLER_class} (he : sampler_read s c loc = some e) (hsig : e.signature < SHCT_SIZE) :
    retire_sampler c key loc e.signature nsig s =
      some (put_sampler
        (if e.reuse = false then put_shct s key e.signature (SAT_DEC (s.SHCT key e.signature))
         else s) c loc ⟨false, nsig⟩) := by
  unfold retire_sampler
  rw [he]
  simp only
  by_cases hre : e.reuse = false
  · simp only [hre, if_true]
    rw [shct_modify_eq _ hsig]
    simp only
    have he1 : sampler_read (put_shct s key e.signature (SAT_DEC (s.SHCT key e.signature))) c loc
        = some e := by simpa using he
    rw [sampler_modify_eq _ he1]
    simp only
    rw [sampler_modify_eq _ (sampler_read_put_sampler _ he1), put_sampler_twice]
  · have hre' : e.reuse = true := by simpa using hre
    simp only [hre', Bool.true_eq_false, if_false]
    rw [sampler_modify_eq _ he]
    simp only
    rw [sampler_modify_eq _ (sampler_read_put_sampler _ he), put_sampler_twice]

theorem insert_rrpv_eq {c : CACHE} {key : CACHE × Nat} {set way nsig : Nat}
    (type : access_type) {s : State}
    (hn : nsig < SHCT_SIZE) (hr : lineIdx c set way < (s.rrpv_values c).length) :
    insert_rrpv c key set way nsig type s =
      some (put_rrpv s c (lineIdx c set way) (insertion type (s.SHCT key nsig))) := by
  unfold insert_rrpv insertion
  rw [shct_read_eq hn]
  by_cases hw : type = access_type.WRITE
  · simp [hw, rrpv_write_eq _ hr]
  · by_cases h0 : s.SHCT key nsig = 0
    · simp [hw, h0, rrpv_write_eq _ hr]
    · by_cases h7 : s.SHCT key nsig = SHCT_MAX
      · have h70 : SHCT_MAX ≠ 0 := by decide
        simp [hw, h7, h70, rrpv_write_eq _ hr]
      · simp [hw, h0, h7, rrpv_write_eq _ hr]


theorem stored_sig_eq {c : CACHE} {s : State} {set way : Nat} {e : SAMPLER_class}
    (hok : update_defined c s set way e) :
    stored_sig c s set way
      = some (if is_sample c s set = true then e.signature else 4294967295) := by
  unfold stored_sig
  by_cases hsam : is_sample c s set = true
  · simp only [hsam, if_true, (hok.2.2 hsam).1]
  · simp only [hsam, if_false]
    simp

theorem update_miss_eq {c : CACHE} {s : State} {set way : Nat} {e : SAMPLER_class}
    (cpu ip rnd : Nat) {hit : Nat} {type : access_type}
    (hok : update_defined c s set way e) (hmiss : ¬ (hit ≠ 0 ∧ type ≠ access_type.WRITE)) :
    update_replacement_state c cpu set way ip type hit rnd s
      = some (miss_result c cpu set way ip type e s) := by
  obtain ⟨hr, hp, hs⟩ := id hok
  unfold update_replacement_state
  rw [stored_sig_eq hok]
  simp only [if_neg hmiss]
  unfold miss_path miss_result
  by_cases hsam : is_sample c s set = true
  · obtain ⟨he, hsig⟩ := hs hsam
    simp only [hsam, if_true]
    rw [retire_sampler_eq _ he hsig]
    simp only
    have hp1 : lineIdx c set way < ((put_sampler
        (if e.reuse = false then
          put_shct s (c, cpu) e.signature (SAT_DEC (s.SHCT (c, cpu) e.signature)) else s)
        c (sampler_loc c s set way) ⟨false, new_sig ip type⟩).is_prefetch c).length := by
      split <;> exact hp
    rw [prefetch_write_eq _ hp1]
    simp only
    have hr1 : lineIdx c set way < ((put_prefetch (put_sampler
        (if e.reuse = false then
          put_shct s (c, cpu) e.signature (SAT_DEC (s.SHCT (c, cpu) e.signature)) else s)
        c (sampler_loc c s set way) ⟨false, new_sig ip type⟩) c (lineIdx c set way)
        (decide (type = access_type.PREFETCH))).rrpv_values c).length := by
      split <;> exact hr
    rw [insert_rrpv_eq _ (new_sig_lt_size ip type) hr1]
  · simp only [hsam, if_false]
    simp only [Bool.false_eq_true, if_false]
    rw [prefetch_write_eq _ hp]
    simp only
    rw [insert_rrpv_eq _ (new_sig_lt_size ip type) (by simpa using hr)]

theorem update_hit_demand_eq {c : CACHE} {s : State} {set way : Nat} {e : SAMPLER_class}
    (cpu ip rnd : Nat) {hit : Nat} {type : access_type} {b : Bool}
    (hok : update_defined c s set way e) (hhit : hit ≠ 0) (hw : type ≠ access_type.WRITE)
    (hb : prefetch_read s c (lineIdx c set way) = some b)
    (hd : type = access_type.PREFETCH → b = false) :
    update_replacement_state c cpu set way ip type hit rnd s
      = some (hit_demand_result c cpu set way e b s) := by
  obtain ⟨hr, hp, hs⟩ := id hok
  unfold update_replacement_state
  rw [stored_sig_eq hok]
  simp only [if_pos (And.intro hhit hw)]
  unfold hit_path hit_demand_result
  have h1 : (if type = access_type.PREFETCH then prefetch_read s c (lineIdx c set way)
         else some false) = some false := by
    by_cases ht : type = access_type.PREFETCH
    · rw [if_pos ht, hb, hd ht]
    · rw [if_neg ht]
  simp only [h1]
  rw [rrpv_write_eq _ hr]
  simp only [prefetch_read_put_rrpv, hb]
  cases b with
  | true =>
    simp only [if_true]
    rw [rrpv_write_eq _ (by simpa using hr)]
    simp only
    rw [prefetch_write_eq _ (by simpa using hp)]
    simp only
    by_cases hsam : is_sample c s set = true
    · obtain ⟨he, hsig⟩ := hs hsam
      simp only [hsam, if_true, true_and, sampler_read_put_prefetch, sampler_read_put_rrpv, he]
      by_cases hre : e.reuse = false
      · simp only [hre, if_true]
        rw [train_reuse_eq (by simpa using he) hsig]
      · have hre' : e.reuse = true := by simpa using hre
        simp only [hre', Bool.true_eq_false, if_false]
    · simp only [hsam, if_false, false_and]
      simp
  | false =>
    simp only [Bool.false_eq_true, if_false]
    by_cases hsam : is_sample c s set = true
    · obtain ⟨he, hsig⟩ := hs hsam
      simp only [hsam, if_true, true_and, sampler_read_put_rrpv, he]
      by_cases hre : e.reuse = false
      · simp only [hre, if_true]
        rw [train_reuse_eq (by simpa using he) hsig]
      · have hre' : e.reuse = true := by simpa using hre
        simp only [hre', Bool.true_eq_false, if_false]
    · simp only [hsam, if_false, false_and]
      simp

theorem update_hit_prefetch_eq {c : CACHE} {s : State} {set way : Nat} {e : SAMPLER_class}
    (cpu ip rnd : Nat) {hit : Nat}
    (hok : update_defined c s set way e) (hhit : hit ≠ 0)
    (hb : prefetch_read s c (lineIdx c set way) = some true) :
    update_replacement_state c cpu set way ip access_type.PREFETCH hit rnd s
      = some (hit_prefetch_result c cpu set way rnd e s) := by
  obtain ⟨hr, hp, hs⟩ := id hok
  unfold update_replacement_state
  rw [stored_sig_eq hok]
  simp only [if_pos (And.intro hhit (show access_type.PREFETCH ≠ access_type.WRITE by decide))]
  unfold hit_path hit_prefetch_result
  simp only [if_true, hb]
  by_cases hsam : is_sample c s set = true
  · obtain ⟨he, hsig⟩ := hs hsam
    simp only [hsam, if_true, true_and]
    by_cases hrnd : rnd % 100 < 5
    · simp only [hrnd, if_true]
      rw [train_reuse_eq he hsig]
    · simp only [hrnd, if_false]
  · simp only [hsam, if_false, false_and]
    simp


theorem miss_result_SHCT (c : CACHE) (cpu set way ip : Nat) (type : access_type)
    (e : SAMPLER_class) (s : State) :
    (miss_result c cpu set way ip type e s).SHCT =
      if is_sample c s set = true ∧ e.reuse = false then
        (put_shct s (c, cpu) e.signature (SAT_DEC (s.SHCT (c, cpu) e.signature))).SHCT
      else s.SHCT := by
  unfold miss_result
  by_cases hsam : is_sample c s set = true
  · by_cases hre : e.reuse = false
    · simp [hsam, hre]
    · simp [hsam, hre]
  · simp [hsam]

theorem miss_result_rrpv {c : CACHE} {s : State} {set way : Nat} (cpu ip : Nat)
    (type : access_type) (e : SAMPLER_class)
    (hr : lineIdx c set way < (s.rrpv_values c).length) :
    rrpv_read (miss_result c cpu set way ip type e s) c (lineIdx c set way) =
      some (insertion type
        ((miss_result c cpu set way ip type e s).SHCT (c, cpu) (new_sig ip type))) := by
  unfold miss_result
  simp only [SHCT_put_rrpv]
  rw [rrpv_read_put_rrpv]
  rw [rrpv_values_put_prefetch]
  split
  · rw [rrpv_values_put_sampler]; split <;> exact hr
  · exact hr

theorem SAT_DEC_zero : SAT_DEC 0 = 0 := by decide

theorem miss_result_counter (c : CACHE) (cpu set way ip : Nat) (type : access_type)
    (e : SAMPLER_class) (s : State) :
    (miss_result c cpu set way ip type e s).SHCT (c, cpu) (new_sig ip type) =
      (if is_sample c s set = true ∧ e.reuse = false ∧ e.signature = new_sig ip type then
        SAT_DEC (s.SHCT (c, cpu) (new_sig ip type))
       else s.SHCT (c, cpu) (new_sig ip type)) := by
  rw [miss_result_SHCT]
  by_cases hsam : is_sample c s set = true
  · by_cases hre : e.reuse = false
    · by_cases hsig : e.signature = new_sig ip type
      · simp [hsam, hre, hsig]
      · simp only [hsam, hre, hsig, and_self, if_true, and_false, if_false, true_and]
        exact put_shct_other _ _ _ _ _ _ (Or.inr (Ne.symm hsig))
    · simp [hsam, hre]
  · simp [hsam]

theorem miss_result_rrpv_values (c : CACHE) (cpu set way ip : Nat) (type : access_type)
    (e : SAMPLER_class) (s : State) :
    (miss_result c cpu set way ip type e s).rrpv_values c =
      (s.rrpv_values c).set (lineIdx c set way)
        (insertion type ((miss_result c cpu set way ip type e s).SHCT (c, cpu)
          (new_sig ip type))) := by
  unfold miss_result
  simp only [put_rrpv, Function.update_same, rrpv_values_put_prefetch, SHCT_put_prefetch]
  split
  · rw [rrpv_values_put_sampler]; split <;> rfl
  · rfl

theorem set_lines_set (c : CACHE) (s s' : State) (set way : Nat) (x : Int)
    (h : s'.rrpv_values c = (s.rrpv_values c).set (lineIdx c set way) x) :
    set_lines c s' set = (set_lines c s set).set way x := by
  unfold set_lines lineIdx at *
  rw [h, ← List.set_drop, List.set_take]

/-! ## Inversion of the writes and invariants of one call -/

theorem rrpv_write_some {s s' : State} {c : CACHE} {i : Nat} {x : Int}
    (h : rrpv_write s c i x = some s') :
    i < (s.rrpv_values c).length ∧ s' = put_rrpv s c i x := by
  by_cases hi : i < (s.rrpv_values c).length
  · rw [rrpv_write_eq x hi] at h
    exact ⟨hi, (Option.some.inj h).symm⟩
  · simp [rrpv_write, vec_set, hi] at h

theorem prefetch_write_some {s s' : State} {c : CACHE} {i : Nat} {b : Bool}
    (h : prefetch_write s c i b = some s') :
    i < (s.is_prefetch c).length ∧ s' = put_prefetch s c i b := by
  by_cases hi : i < (s.is_prefetch c).length
  · rw [prefetch_write_eq b hi] at h
    exact ⟨hi, (Option.some.inj h).symm⟩
  · simp [prefetch_write, vec_set, hi] at h

theorem shct_modify_some {s s' : State} {key : CACHE × Nat} {sig : Nat} {f : Nat → Nat}
    (h : shct_modify s key sig f = some s') :
    sig < SHCT_SIZE ∧ s' = put_shct s key sig (f (s.SHCT key sig)) := by
  by_cases hi : sig < SHCT_SIZE
  · rw [shct_modify_eq f hi] at h
    exact ⟨hi, (Option.some.inj h).symm⟩
  · simp [shct_modify, hi] at h

theorem sampler_modify_some {s s' : State} {c : CACHE} {loc : Nat}
    {f : SAMPLER_class → SAMPLER_class} (h : sampler_modify s c loc f = some s') :
    ∃ e, sampler_read s c loc = some e ∧ s' = put_sampler s c loc (f e) := by
  cases he : sampler_read s c loc with
  | none =>
    unfold sampler_read at he
    unfold sampler_modify at h
    cases hv : s.sampler c with
    | none => simp [hv] at h
    | some v =>
      rw [hv] at he
      simp only at he
      simp [hv, he] at h
  | some e =>
    rw [sampler_modify_eq f he] at h
    exact ⟨e, rfl, (Option.some.inj h).symm⟩

theorem rrpv_read_put_rrpv_other (s : State) (c c' : CACHE) (i i' : Nat) (x : Int)
    (h : c' ≠ c ∨ i' ≠ i) : rrpv_read (put_rrpv s c' i' x) c i = rrpv_read s c i := by
  unfold rrpv_read put_rrpv
  by_cases hc : c = c'
  · subst hc
    have hi : i' ≠ i := by
      rcases h with h | h
      · exact absurd rfl h
      · exact h
    simp [List.getElem?_set_ne hi]
  · simp [Function.update_noteq hc]

theorem prefetch_read_put_prefetch_other (s : State) (c c' : CACHE) (i i' : Nat) (b : Bool)
    (h : c' ≠ c ∨ i' ≠ i) :
    prefetch_read (put_prefetch s c' i' b) c i = prefetch_read s c i := by
  unfold prefetch_read put_prefetch
  by_cases hc : c = c'
  · subst hc
    have hi : i' ≠ i := by
      rcases h with h | h
      · exact absurd rfl h
      · exact h
    simp [List.getElem?_set_ne hi]
  · simp [Function.update_noteq hc]

/-- A predicate that only reads one line is kept by the writes to any other line. -/
theorem preserved_line (c c' : CACHE) (i i' : Nat) (r : Option Int) (p : Option Bool)
    (h : c' ≠ c ∨ i' ≠ i) :
    Preserved (fun st => rrpv_read st c i = r ∧ prefetch_read st c i = p) c' i' where
  shct_inc := by
    intro s key sig s' hs hI
    rw [(shct_modify_some hs).2]; simpa using hI
  shct_dec := by
    intro s key sig s' hs hI
    rw [(shct_modify_some hs).2]; simpa using hI
  reuse := by
    intro s loc b s' hs hI
    obtain ⟨e, _, rfl⟩ := sampler_modify_some hs
    simpa using hI
  sig := by
    intro s loc ip type s' hs hI
    obtain ⟨e, _, rfl⟩ := sampler_modify_some hs
    simpa using hI
  prefetch := by
    intro s b s' hs hI
    rw [(prefetch_write_some hs).2, prefetch_read_put_prefetch_other _ _ _ _ _ _ h]
    simpa using hI
  rrpv := by
    intro s x s' _ hs hI
    rw [(rrpv_write_some hs).2, rrpv_read_put_rrpv_other _ _ _ _ _ _ h]
    simpa using hI

theorem train_reuse_preserves {I : State → Prop} {c : CACHE} {i : Nat}
    (hI : Preserved I c i) {key : CACHE × Nat} {loc sig : Nat} {s s' : State}
    (h : train_reuse c key loc sig s = some s') (hs : I s) : I s' := by
  unfold train_reuse at h
  split at h
  · exact absurd h (by simp)
  · next s1 h1 => exact hI.reuse _ _ _ _ h (hI.shct_inc _ _ _ _ h1 hs)

theorem retire_sampler_preserves {I : State → Prop} {c : CACHE} {i : Nat}
    (hI : Preserved I c i) {key : CACHE × Nat} {loc sig ip : Nat}
    {type : access_type} {s s' : State}
    (h : retire_sampler c key loc sig (new_sig ip type) s = some s') (hs : I s) : I s' := by
  unfold retire_sampler at h
  split at h
  · exact absurd h (by simp)
  · next e _ =>
    split at h
    · exact absurd h (by simp)
    · next s1 h1 =>
      have hs1 : I s1 := by
        split at h1
        · exact hI.shct_dec _ _ _ _ h1 hs
        · cases h1; exact hs
      split at h
      · exact absurd h (by simp)
      · next s2 h2 => exact hI.sig _ _ _ _ _ h (hI.reuse _ _ _ _ h2 hs1)

theorem insert_rrpv_preserves {I : State → Prop} {c : CACHE} {set way : Nat}
    (hI : Preserved I c (lineIdx c set way)) {key : CACHE × Nat} {nsig : Nat}
    {type : access_type} {s s' : State}
    (h : insert_rrpv c key set way nsig type s = some s') (hs : I s) : I s' := by
  unfold insert_rrpv at h
  split at h
  · exact absurd h (by simp)
  · exact hI.rrpv _ _ _ (Or.inr (Or.inl rfl)) h hs
  · split at h
    · exact absurd h (by simp)
    · split at h
      · exact hI.rrpv _ _ _ (Or.inl rfl) h hs
      · exact hI.rrpv _ _ _ (Or.inr (Or.inr rfl)) h hs

theorem miss_path_preserves {I : State → Prop} {c : CACHE} {set way : Nat}
    (hI : Preserved I c (lineIdx c set way)) {cpu ip sig : Nat}
    {type : access_type} {s s' : State}
    (h : miss_path c cpu set way ip type sig s = some s') (hs : I s) : I s' := by
  unfold miss_path at h
  simp only at h
  split at h
  · exact absurd h (by simp)
  · next s1 h1 =>
    have hs1 : I s1 := by
      split at h1
      · exact retire_sampler_preserves hI h1 hs
      · cases h1; exact hs
    split at h
    · exact absurd h (by simp)
    · next s2 h2 => exact insert_rrpv_preserves hI h (hI.prefetch _ _ _ h2 hs1)

theorem hit_path_preserves {I : State → Prop} {c : CACHE} {set way : Nat}
    (hI : Preserved I c (lineIdx c set way)) {cpu rnd sig : Nat}
    {type : access_type} {s s' : State}
    (h : hit_path c cpu set way type rnd sig s = some s') (hs : I s) : I s' := by
  unfold hit_path at h
  simp only at h
  split at h
  · exact absurd h (by simp)
  · split at h
    · exact train_reuse_preserves hI h hs
    · cases h; exact hs
  · split at h
    · exact absurd h (by simp)
    · next s1 h1 =>
      have hs1 : I s1 := hI.rrpv _ _ _ (Or.inl rfl) h1 hs
      split at h
      · exact absurd h (by simp)
      · next p _ =>
        split at h
        · exact absurd h (by simp)
        · next s3 h3 =>
          have hs3 : I s3 := by
            split at h3
            · split at h3
              · exact absurd h3 (by simp)
              · next s2 h2 =>
                exact hI.prefetch _ _ _ h3 (hI.rrpv _ _ _ (Or.inr (Or.inl rfl)) h2 hs1)
            · cases h3; exact hs1
          split at h
          · split at h
            · exact absurd h (by simp)
            · split at h
              · exact train_reuse_preserves hI h hs3
              · cases h; exact hs3
          · cases h; exact hs3

theorem update_preserves {I : State → Prop} {c : CACHE} {set way : Nat}
    (hI : Preserved I c (lineIdx c set way)) {cpu ip hit rnd : Nat}
    {type : access_type} {s s' : State}
    (h : update_replacement_state c cpu set way ip type hit rnd s = some s') (hs : I s) :
    I s' := by
  unfold update_replacement_state at h
  split at h
  · exact absurd h (by simp)
  · split at h
    · exact hit_path_preserves hI h hs
    · exact miss_path_preserves hI h hs

/-- C5. A miss-path call (`hit = 0`) of `update_replacement_state` with an access type other
than `WRITE` returns, and the value it writes to line `(set, way)` is decided by the counter
`SHCT[(c, cpu)][new_sig]` as it stands after the retirement of the sampler entry (that is the
entry counter, decremented if the set is sampled and the outgoing entry has `reuse = false` and
the same signature): `maxRRPV` when the counter is 0, `0` when it is `SHCT_MAX`, and
`maxRRPV - 1` otherwise. -/
theorem miss_insertion_by_counter (c : CACHE) (cpu set way ip rnd : Nat) (type : access_type)
    (e : SAMPLER_class) (s : State)
    (hok : update_defined c s set way e) (hw : type ≠ access_type.WRITE) :
    ∃ s', update_replacement_state c cpu set way ip type 0 rnd s = some s' ∧
      s'.SHCT (c, cpu) (new_sig ip type) =
        (if is_sample c s set = true ∧ e.reuse = false ∧ e.signature = new_sig ip type then
          SAT_DEC (s.SHCT (c, cpu) (new_sig ip type))
         else s.SHCT (c, cpu) (new_sig ip type)) ∧
      (s'.SHCT (c, cpu) (new_sig ip type) = 0 →
        rrpv_read s' c (lineIdx c set way) = some maxRRPV) ∧
      (s'.SHCT (c, cpu) (new_sig ip type) = SHCT_MAX →
        rrpv_read s' c (lineIdx c set way) = some 0) ∧
      (s'.SHCT (c, cpu) (new_sig ip type) ≠ 0 →
        s'.SHCT (c, cpu) (new_sig ip type) ≠ SHCT_MAX →
        rrpv_read s' c (lineIdx c set way) = some (maxRRPV - 1)) := by
  refine ⟨_, update_miss_eq cpu ip rnd hok (by simp), miss_result_counter _ _ _ _ _ _ _ _, ?_, ?_, ?_⟩
  · intro h0
    rw [miss_result_rrpv cpu ip type e hok.1, h0]
    simp [insertion]
  · intro h7
    rw [miss_result_rrpv cpu ip type e hok.1, h7]
    simp [insertion, hw, SHCT_MAX]
  · intro h0 h7
    rw [miss_result_rrpv cpu ip type e hok.1]
    simp [insertion, hw, h0, h7]

/-- The statement of C5 for a load miss on line `(1, 0)` of `ex_state`. -/
theorem miss_insertion_by_counter_witness :
    ∃ s', update_replacement_state c1 0 1 0 3 access_type.LOAD 0 0 ex_state = some s' ∧
      s'.SHCT (c1, 0) (new_sig 3 access_type.LOAD) =
        (if is_sample c1 ex_state 1 = true ∧ (⟨false, 6⟩ : SAMPLER_class).reuse = false
            ∧ (⟨false, 6⟩ : SAMPLER_class).signature = new_sig 3 access_type.LOAD then
          SAT_DEC (ex_state.SHCT (c1, 0) (new_sig 3 access_type.LOAD))
         else ex_state.SHCT (c1, 0) (new_sig 3 access_type.LOAD)) ∧
      (s'.SHCT (c1, 0) (new_sig 3 access_type.LOAD) = 0 →
        rrpv_read s' c1 (lineIdx c1 1 0) = some maxRRPV) ∧
      (s'.SHCT (c1, 0) (new_sig 3 access_type.LOAD) = SHCT_MAX →
        rrpv_read s' c1 (lineIdx c1 1 0) = some 0) ∧
      (s'.SHCT (c1, 0) (new_sig 3 access_type.LOAD) ≠ 0 →
        s'.SHCT (c1, 0) (new_sig 3 access_type.LOAD) ≠ SHCT_MAX →
        rrpv_read s' c1 (lineIdx c1 1 0) = some (maxRRPV - 1)) :=
  miss_insertion_by_counter c1 0 1 0 3 0 access_type.LOAD ⟨false, 6⟩ ex_state
    ⟨by decide, by decide, fun _ => ⟨rfl, by decide⟩⟩ (by decide)


theorem hit_demand_result_rrpv {c : CACHE} {s : State} {set way : Nat} (cpu : Nat)
    (e : SAMPLER_class) (b : Bool) (hr : lineIdx c set way < (s.rrpv_values c).length) :
    rrpv_read (hit_demand_result c cpu set way e b s) c (lineIdx c set way) =
      some (if b = true then maxRRPV else 0) := by
  unfold hit_demand_result
  cases b <;> simp only [Bool.false_eq_true, if_true, if_false] <;> split <;>
    simp [rrpv_read_put_rrpv, hr]

theorem hit_demand_result_prefetch {c : CACHE} {s : State} {set way : Nat} (cpu : Nat)
    (e : SAMPLER_class) {b : Bool} (hp : lineIdx c set way < (s.is_prefetch c).length)
    (hb : prefetch_read s c (lineIdx c set way) = some b) :
    prefetch_read (hit_demand_result c cpu set way e b s) c (lineIdx c set way)
      = some false := by
  unfold hit_demand_result
  cases b <;> simp only [Bool.false_eq_true, if_true, if_false] <;> split <;>
    simp [prefetch_read_put_prefetch, hp, hb]

theorem hit_demand_result_SHCT (c : CACHE) (cpu set way : Nat) (e : SAMPLER_class) (b : Bool)
    (s : State) :
    (hit_demand_result c cpu set way e b s).SHCT =
      if is_sample c s set = true ∧ e.reuse = false then
        (put_shct s (c, cpu) e.signature (SAT_INC (s.SHCT (c, cpu) e.signature) SHCT_MAX)).SHCT
      else s.SHCT := by
  unfold hit_demand_result
  cases b <;> simp only [Bool.false_eq_true, if_true, if_false] <;> split <;> rfl

/-- C6. For every state, SHCT content, instruction pointer and value of the hit flag, a call of
`update_replacement_state` with access type `WRITE` returns and leaves line `(set, way)` at
`maxRRPV`. -/
theorem write_inserts_at_max (c : CACHE) (cpu set way ip hit rnd : Nat) (e : SAMPLER_class)
    (s : State) (hok : update_defined c s set way e) :
    ∃ s', update_replacement_state c cpu set way ip access_type.WRITE hit rnd s = some s' ∧
      rrpv_read s' c (lineIdx c set way) = some maxRRPV := by
  refine ⟨_, update_miss_eq cpu ip rnd hok (by simp), ?_⟩
  rw [miss_result_rrpv cpu ip access_type.WRITE e hok.1]
  simp [insertion]

/-- The statement of C6 for a write hit on line `(1, 1)` of `ex_state`, whose signature has its
counter at `SHCT_MAX`. -/
theorem write_inserts_at_max_witness :
    update_defined c1 ex_state 1 1 ⟨true, 6⟩ ∧
    ex_state.SHCT (c1, 0) (new_sig 3 access_type.WRITE) = SHCT_MAX ∧
    ∃ s', update_replacement_state c1 0 1 1 3 access_type.WRITE 1 0 ex_state = some s' ∧
      rrpv_read s' c1 (lineIdx c1 1 1) = some maxRRPV :=
  ⟨⟨by decide, by decide, fun _ => ⟨rfl, by decide⟩⟩, by decide,
    write_inserts_at_max c1 0 1 1 3 1 0 ⟨true, 6⟩ ex_state
      ⟨by decide, by decide, fun _ => ⟨rfl, by decide⟩⟩⟩

/-- C7. When line `(set, way)` is tagged as prefetched, a hit with an access type that is
neither `WRITE` nor `PREFETCH` returns and leaves the line at `maxRRPV` (not 0) with the
prefetch tag cleared. -/
theorem demand_hit_on_prefetched_line (c : CACHE) (cpu set way ip hit rnd : Nat)
    (type : access_type) (e : SAMPLER_class) (s : State)
    (hok : update_defined c s set way e)
    (hpf : prefetch_read s c (lineIdx c set way) = some true)
    (hhit : hit ≠ 0) (hw : type ≠ access_type.WRITE) (hp : type ≠ access_type.PREFETCH) :
    ∃ s', update_replacement_state c cpu set way ip type hit rnd s = some s' ∧
      rrpv_read s' c (lineIdx c set way) = some maxRRPV ∧
      prefetch_read s' c (lineIdx c set way) = some false := by
  refine ⟨_, update_hit_demand_eq cpu ip rnd hok hhit hw hpf (fun h => absurd h hp), ?_, ?_⟩
  · rw [hit_demand_result_rrpv cpu e true hok.1]; rfl
  · exact hit_demand_result_prefetch cpu e hok.2.1 hpf

/-- The statement of C7 for a load hit on the prefetched line `(1, 0)` of `ex_state`. -/
theorem demand_hit_on_prefetched_line_witness :
    update_defined c1 ex_state 1 0 ⟨false, 6⟩ ∧
    prefetch_read ex_state c1 (lineIdx c1 1 0) = some true ∧
    ∃ s', update_replacement_state c1 0 1 0 3 access_type.LOAD 1 0 ex_state = some s' ∧
      rrpv_read s' c1 (lineIdx c1 1 0) = some maxRRPV ∧
      prefetch_read s' c1 (lineIdx c1 1 0) = some false :=
  ⟨⟨by decide, by decide, fun _ => ⟨rfl, by decide⟩⟩, by decide,
    demand_hit_on_prefetched_line c1 0 1 0 3 1 0 access_type.LOAD ⟨false, 6⟩ ex_state
      ⟨by decide, by decide, fun _ => ⟨rfl, by decide⟩⟩ (by decide) (by decide) (by decide)
      (by decide)⟩

/-- C10. When `SHCT[(c, cpu)][new_sig]` is 0 and every other way of the set holds a value
below `maxRRPV`, a demand-read miss on `(set, way)` returns and inserts the line at `maxRRPV`,
and a `find_victim` on that set that follows immediately makes no aging pass, returns exactly
`way` and leaves the state (hence every rrpv) unchanged, whatever the fuel. -/
theorem cold_insert_is_next_victim (c : CACHE) (cpu set way ip rnd fuel : Nat)
    (type : access_type) (e : SAMPLER_class) (s : State)
    (hok : update_defined c s set way e)
    (hlen : (s.rrpv_values c).length = c.NUM_SET * c.NUM_WAY)
    (hset : set < c.NUM_SET) (hway : way < c.NUM_WAY) (h32 : c.NUM_WAY ≤ 2 ^ 32)
    (hw : type ≠ access_type.WRITE) (hp : type ≠ access_type.PREFETCH)
    (hctr : s.SHCT (c, cpu) (new_sig ip type) = 0)
    (hothers : ∀ j, j < c.NUM_WAY → j ≠ way →
      ∀ x, rrpv_read s c (lineIdx c set j) = some x → x < maxRRPV) :
    ∃ s', update_replacement_state c cpu set way ip type 0 rnd s = some s' ∧
      rrpv_read s' c (lineIdx c set way) = some maxRRPV ∧
      find_victim_loop fuel (set_lines c s' set) = some (0, set_lines c s' set) ∧
      find_victim fuel c set s' = some (way, s') := by
  have hb := set_range_le c s set hlen hset
  have hctr' : (miss_result c cpu set way ip type e s).SHCT (c, cpu) (new_sig ip type) = 0 := by
    rw [miss_result_counter, hctr]
    split
    · exact SAT_DEC_zero
    · rfl
  have hvals := miss_result_rrpv_values c cpu set way ip type e s
  rw [hctr'] at hvals
  have hins : insertion type 0 = maxRRPV := by simp [insertion]
  rw [hins] at hvals
  have hlines := set_lines_set c s _ set way maxRRPV hvals
  have hlen0 := set_lines_length c s set hb
  have hmem : maxRRPV ∈ set_lines c (miss_result c cpu set way ip type e s) set := by
    rw [hlines]
    exact List.mem_set _ _ (by omega) _
  have hloop := find_victim_loop_found fuel _ hmem
  have hidx : (set_lines c (miss_result c cpu set way ip type e s) set).indexOf maxRRPV
      = way := by
    rw [hlines]
    apply indexOf_set_first _ _ _ (by omega)
    intro j hj hcontra
    rw [set_lines_getElem c s set j (by omega)] at hcontra
    exact absurd (hothers j (by omega) (by omega) _ hcontra) (lt_irrefl _)
  refine ⟨_, update_miss_eq cpu ip rnd hok (by simp), ?_, hloop, ?_⟩
  · rw [miss_result_rrpv cpu ip type e hok.1, hctr', hins]
  · have hb' : set * c.NUM_WAY + c.NUM_WAY
        ≤ ((miss_result c cpu set way ip type e s).rrpv_values c).length := by
      rw [hvals, List.length_set]; exact hb
    unfold find_victim
    rw [if_pos hb', hloop]
    simp only [hidx]
    rw [Nat.mod_eq_of_lt (by omega)]
    have hsp : splice ((miss_result c cpu set way ip type e s).rrpv_values c)
        (set * c.NUM_WAY) c.NUM_WAY (set_lines c (miss_result c cpu set way ip type e s) set)
        = (miss_result c cpu set way ip type e s).rrpv_values c := splice_self _ _ _
    rw [hsp, State.update_rrpv_self]

/-! ## Invariants of the reachable states -/

theorem find_victim_loop_range :
    ∀ (fuel : Nat) (lines out : List Int) (passes : Nat),
      find_victim_loop fuel lines = some (passes, out) →
      (∀ x ∈ lines, 0 ≤ x ∧ x ≤ maxRRPV) → ∀ x ∈ out, 0 ≤ x ∧ x ≤ maxRRPV := by
  intro fuel
  induction fuel with
  | zero =>
    intro lines out passes h hall
    unfold find_victim_loop at h
    split at h
    · cases h; exact hall
    · exact absurd h (by simp)
  | succ f ih =>
    intro lines out passes h hall
    unfold find_victim_loop at h
    split at h
    · cases h; exact hall
    · next hnot =>
      split at h
      · exact absurd h (by simp)
      · next p o hrec =>
        cases h
        refine ih _ _ _ hrec ?_
        intro x hx
        obtain ⟨y, hy, rfl⟩ := List.mem_map.mp hx
        have hy2 := hall y hy
        have hne : y ≠ maxRRPV := by
          intro heq
          exact hnot (List.indexOf_lt_length.mpr (heq ▸ hy))
        simp only [maxRRPV] at *
        omega

theorem find_victim_loop_length :
    ∀ (fuel : Nat) (lines out : List Int) (passes : Nat),
      find_victim_loop fuel lines = some (passes, out) → out.length = lines.length := by
  intro fuel
  induction fuel with
  | zero =>
    intro lines out passes h
    unfold find_victim_loop at h
    split at h
    · cases h; rfl
    · exact absurd h (by simp)
  | succ f ih =>
    intro lines out passes h
    unfold find_victim_loop at h
    split at h
    · cases h; rfl
    · split at h
      · exact absurd h (by simp)
      · next p o hrec =>
        cases h
        simpa using ih _ _ _ hrec

theorem find_victim_some {fuel : Nat} {c : CACHE} {set way : Nat} {s s' : State}
    (h : find_victim fuel c set s = some (way, s')) :
    set * c.NUM_WAY + c.NUM_WAY ≤ (s.rrpv_values c).length ∧
    ∃ passes out, find_victim_loop fuel (set_lines c s set) = some (passes, out) ∧
      way = out.indexOf maxRRPV % 2 ^ 32 ∧
      s' = { s with rrpv_values := Function.update s.rrpv_values c
                                    (splice (s.rrpv_values c) (set * c.NUM_WAY) c.NUM_WAY out) } := by
  unfold find_victim at h
  split at h
  · next hb =>
    split at h
    · exact absurd h (by simp)
    · next p out hloop =>
      simp only [Option.some.injEq, Prod.mk.injEq] at h
      exact ⟨hb, p, out, hloop, h.1.symm, h.2.symm⟩
  · exact absurd h (by simp)

theorem rrpv_in_range_preserved (c : CACHE) (i : Nat) : Preserved rrpv_in_range c i where
  shct_inc := by
    intro s key sig s' hs hI
    rw [(shct_modify_some hs).2]; exact hI
  shct_dec := by
    intro s key sig s' hs hI
    rw [(shct_modify_some hs).2]; exact hI
  reuse := by
    intro s loc b s' hs hI
    obtain ⟨e, _, rfl⟩ := sampler_modify_some hs
    exact hI
  sig := by
    intro s loc ip type s' hs hI
    obtain ⟨e, _, rfl⟩ := sampler_modify_some hs
    exact hI
  prefetch := by
    intro s b s' hs hI
    rw [(prefetch_write_some hs).2]; exact hI
  rrpv := by
    intro s x s' hx hs hI
    rw [(rrpv_write_some hs).2]
    intro c' y hy
    unfold put_rrpv at hy
    by_cases hc : c' = c
    · subst hc
      simp only [Function.update_same] at hy
      rcases List.mem_or_eq_of_mem_set hy with hy | rfl
      · exact hI _ _ hy
      · rcases hx with rfl | rfl | rfl <;> decide
    · simp only [Function.update_noteq hc] at hy
      exact hI _ _ hy

theorem SAT_INC_le (x : Nat) (h : x ≤ SHCT_MAX) : SAT_INC x SHCT_MAX ≤ SHCT_MAX := by
  unfold SAT_INC SHCT_MAX at *
  split <;> omega

theorem SAT_DEC_le (x : Nat) (h : x ≤ SHCT_MAX) : SAT_DEC x ≤ SHCT_MAX := by
  unfold SAT_DEC SHCT_MAX at *
  split <;> omega

theorem shct_in_range_put (s : State) (key : CACHE × Nat) (sig x : Nat)
    (hI : shct_in_range s) (hx : x ≤ SHCT_MAX) : shct_in_range (put_shct s key sig x) := by
  intro key' sig'
  by_cases h : key' = key ∧ sig' = sig
  · rw [h.1, h.2, put_shct_same]; exact hx
  · rw [put_shct_other _ _ _ _ _ _ (by tauto)]
    exact hI _ _

theorem shct_in_range_preserved (c : CACHE) (i : Nat) : Preserved shct_in_range c i where
  shct_inc := by
    intro s key sig s' hs hI
    rw [(shct_modify_some hs).2]
    exact shct_in_range_put _ _ _ _ hI (SAT_INC_le _ (hI _ _))
  shct_dec := by
    intro s key sig s' hs hI
    rw [(shct_modify_some hs).2]
    exact shct_in_range_put _ _ _ _ hI (SAT_DEC_le _ (hI _ _))
  reuse := by
    intro s loc b s' hs hI
    obtain ⟨e, _, rfl⟩ := sampler_modify_some hs
    exact hI
  sig := by
    intro s loc ip type s' hs hI
    obtain ⟨e, _, rfl⟩ := sampler_modify_some hs
    exact hI
  prefetch := by
    intro s b s' hs hI
    rw [(prefetch_write_some hs).2]; exact hI
  rrpv := by
    intro s x s' _ hs hI
    rw [(rrpv_write_some hs).2]; exact hI

theorem initialize_replacement_some {n fuel : Nat} {c : CACHE} {s s' : State}
    (h : initialize_replacement n fuel c s = some s') :
    s'.rrpv_values = Function.update s.rrpv_values c
        (List.replicate (c.NUM_SET * c.NUM_WAY) maxRRPV) ∧
    s'.is_prefetch = Function.update s.is_prefetch c
        (List.replicate (c.NUM_SET * c.NUM_WAY) false) ∧
    s'.sampler = sampler_emplace s.sampler c (SAMPLER_SET n * c.NUM_WAY) ∧
    s'.SHCT = s.SHCT ∧
    sample_loop fuel c.NUM_SET (SAMPLER_SET n) (s.rand_sets c) (1103515245 + 12345)
      = some (s'.rand_sets c) ∧
    ∀ c', c' ≠ c → s'.rand_sets c' = s.rand_sets c' := by
  unfold initialize_replacement at h
  split at h
  · exact absurd h (by simp)
  · next v hv =>
    cases h
    refine ⟨rfl, rfl, rfl, rfl, by simpa using hv, ?_⟩
    intro c' hc
    simp [Function.update_noteq hc]

theorem rrpv_in_range_reachable (n : Nat) (s : State) (h : Reachable n s) :
    rrpv_in_range s := by
  induction h with
  | start => intro c x hx; simp [State.start] at hx
  | init fuel c s s' _ hinit ih =>
    intro c' x hx
    rw [(initialize_replacement_some hinit).1] at hx
    by_cases hc : c' = c
    · subst hc
      simp only [Function.update_same] at hx
      rw [(List.mem_replicate.mp hx).2]
      decide
    · rw [Function.update_noteq hc] at hx
      exact ih _ _ hx
  | victim fuel c set way s s' _ _ hv ih =>
    obtain ⟨hb, passes, out, hloop, _, rfl⟩ := find_victim_some hv
    intro c' x hx
    by_cases hc : c' = c
    · subst hc
      simp only [Function.update_same, splice, List.mem_append] at hx
      rcases hx with (hx | hx) | hx
      · exact ih _ _ (List.mem_of_mem_take hx)
      · refine find_victim_loop_range _ _ _ _ hloop ?_ x hx
        intro y hy
        exact ih _ _ (List.mem_of_mem_drop (List.mem_of_mem_take hy))
      · exact ih _ _ (List.mem_of_mem_drop hx)
    · simp only [Function.update_noteq hc] at hx
      exact ih _ _ hx
  | update c cpu set way ip type hit rnd s s' _ _ _ hu ih =>
    exact update_preserves (rrpv_in_range_preserved c _) hu ih

theorem shct_in_range_reachable (n : Nat) (s : State) (h : Reachable n s) :
    shct_in_range s := by
  induction h with
  | start => intro key sig; simp [State.start]
  | init fuel c s s' _ hinit ih =>
    intro key sig
    rw [(initialize_replacement_some hinit).2.2.2.1]
    exact ih _ _
  | victim fuel c set way s s' _ _ hv ih =>
    obtain ⟨hb, passes, out, hloop, _, rfl⟩ := find_victim_some hv
    exact ih
  | update c cpu set way ip type hit rnd s s' _ _ _ hu ih =>
    exact update_preserves (shct_in_range_preserved c _) hu ih

theorem miss_result_rand_sets (c : CACHE) (cpu set way ip : Nat) (type : access_type)
    (e : SAMPLER_class) (s : State) :
    (miss_result c cpu set way ip type e s).rand_sets = s.rand_sets := by
  unfold miss_result
  simp only [put_rrpv, put_prefetch]
  split
  · simp only [put_sampler]; split <;> rfl
  · rfl

theorem miss_result_is_sample (c : CACHE) (cpu set way ip : Nat) (type : access_type)
    (e : SAMPLER_class) (s : State) (c' : CACHE) (set' : Nat) :
    is_sample c' (miss_result c cpu set way ip type e s) set' = is_sample c' s set' := by
  unfold is_sample
  rw [miss_result_rand_sets]

theorem miss_result_sampler_loc (c : CACHE) (cpu set way ip : Nat) (type : access_type)
    (e : SAMPLER_class) (s : State) (c' : CACHE) (set' way' : Nat) :
    sampler_loc c' (miss_result c cpu set way ip type e s) set' way'
      = sampler_loc c' s set' way' := by
  unfold sampler_loc
  rw [miss_result_is_sample, miss_result_rand_sets]

theorem miss_result_is_prefetch (c : CACHE) (cpu set way ip : Nat) (type : access_type)
    (e : SAMPLER_class) (s : State) :
    (miss_result c cpu set way ip type e s).is_prefetch c =
      (s.is_prefetch c).set (lineIdx c set way) (decide (type = access_type.PREFETCH)) := by
  unfold miss_result
  simp only [is_prefetch_put_rrpv, put_prefetch, Function.update_same]
  split
  · rw [is_prefetch_put_sampler]; split <;> rfl
  · rfl

theorem miss_result_sampler {c : CACHE} {s : State} {set way : Nat} (cpu ip : Nat)
    (type : access_type) {e : SAMPLER_class}
    (hsam : is_sample c s set = true)
    (he : sampler_read s c (sampler_loc c s set way) = some e) :
    sampler_read (miss_result c cpu set way ip type e s) c (sampler_loc c s set way)
      = some ⟨false, new_sig ip type⟩ := by
  unfold miss_result
  simp only [hsam, if_true, sampler_read_put_rrpv, sampler_read_put_prefetch]
  apply sampler_read_put_sampler (e := e)
  split
  · simpa using he
  · exact he

theorem update_defined_after_miss {c : CACHE} {s : State} {set way : Nat} (cpu ip : Nat)
    (type : access_type) {e : SAMPLER_class} (hok : update_defined c s set way e) :
    update_defined c (miss_result c cpu set way ip type e s) set way
      ⟨false, new_sig ip type⟩ := by
  refine ⟨?_, ?_, ?_⟩
  · rw [miss_result_rrpv_values, List.length_set]; exact hok.1
  · rw [miss_result_is_prefetch, List.length_set]; exact hok.2.1
  · intro hsam
    rw [miss_result_is_sample] at hsam
    rw [miss_result_sampler_loc]
    exact ⟨miss_result_sampler cpu ip type hsam (hok.2.2 hsam).1, new_sig_lt_size ip type⟩

theorem miss_result_prefetch {c : CACHE} {s : State} {set way : Nat} (cpu ip : Nat)
    (type : access_type) (e : SAMPLER_class)
    (hp : lineIdx c set way < (s.is_prefetch c).length) :
    prefetch_read (miss_result c cpu set way ip type e s) c (lineIdx c set way)
      = some (decide (type = access_type.PREFETCH)) := by
  unfold prefetch_read
  rw [miss_result_is_prefetch]
  simp [hp]

theorem example_run_checked :
    (example_run.map fun s => decide (example_facts s)) = some true := by
  decide!

theorem example_run_some : example_run = some example_final := by
  have h := example_run_checked
  unfold example_final
  cases hr : example_run with
  | none => rw [hr] at h; exact absurd h (by simp)
  | some s => rfl

theorem example_final_facts : example_facts example_final := by
  have h := example_run_checked
  rw [example_run_some] at h
  simpa using h

theorem train_reachable (n : Nat) : ∀ (k : Nat) (s s' : State), Reachable n s →
    train k s = some s' → Reachable n s' := by
  intro k
  induction k with
  | zero =>
    intro s s' hs h
    simp only [train, Option.some.injEq] at h
    exact h ▸ hs
  | succ k ih =>
    intro s s' hs h
    simp only [train] at h
    cases h1 : fill_and_hit s with
    | none => rw [h1] at h; exact absurd h (by simp)
    | some t =>
      rw [h1] at h
      simp only [Option.some_bind] at h
      refine ih t s' ?_ h
      unfold fill_and_hit at h1
      cases h2 : update_replacement_state c2 0 1 0 3 access_type.LOAD 0 0 s with
      | none => rw [h2] at h1; exact absurd h1 (by simp)
      | some u =>
        rw [h2] at h1
        simp only [Option.some_bind] at h1
        exact Reachable.update c2 0 1 0 3 _ 1 0 _ _
          (Reachable.update c2 0 1 0 3 _ 0 0 _ _ hs (by decide) (by decide) h2)
          (by decide) (by decide) h1

theorem example_final_reachable : Reachable 1 example_final := by
  have h := example_run_some
  unfold example_run at h
  cases h0 : initialize_replacement 1 64 c2 State.start with
  | none => rw [h0] at h; exact absurd h (by simp)
  | some s0 =>
    rw [h0] at h
    simp only [Option.some_bind] at h
    cases h1 : train 7 s0 with
    | none => rw [h1] at h; exact absurd h (by simp)
    | some s1 =>
      rw [h1] at h
      simp only [Option.some_bind] at h
      cases h2 : update_replacement_state c2 0 1 1 3 access_type.LOAD 1 0 s1 with
      | none => rw [h2] at h; exact absurd h (by simp)
      | some s2 =>
        rw [h2] at h
        simp only [Option.some_bind] at h
        cases h3 : find_victim 3 c2 1 s2 with
        | none => rw [h3] at h; exact absurd h (by simp)
        | some r =>
          rw [h3] at h
          simp only [Option.map_some', Option.some.injEq] at h
          have hr0 := Reachable.init 64 c2 _ _ Reachable.start h0
          have hr1 := train_reachable 1 7 _ _ hr0 h1
          have hr2 := Reachable.update c2 0 1 1 3 _ 1 0 _ _ hr1 (by decide) (by decide) h2
          have hr3 := Reachable.victim 3 c2 1 r.1 s2 r.2 hr2 (by decide) h3
          rw [h] at hr3
          exact hr3

theorem example_final_defined : update_defined c2 example_final 1 0 ⟨true, 6⟩ := by
  obtain ⟨_, _, hsam, hloc, he, hpf, hlen⟩ := example_final_facts
  refine ⟨hlen, ?_, fun _ => ⟨by rw [hloc]; exact he, by decide⟩⟩
  unfold prefetch_read at hpf
  by_contra hge
  rw [List.getElem?_eq_none (by omega)] at hpf
  exact absurd hpf (by simp)

theorem hit_demand_result_counter (c : CACHE) (cpu set way sig : Nat) (b : Bool) (s : State)
    (hsam : is_sample c s set = true) :
    (hit_demand_result c cpu set way ⟨false, sig⟩ b s).SHCT (c, cpu) sig
      = SAT_INC (s.SHCT (c, cpu) sig) SHCT_MAX := by
  rw [hit_demand_result_SHCT, if_pos ⟨hsam, rfl⟩]
  exact put_shct_same _ _ _ _

theorem new_sig_example_load : new_sig 3 access_type.LOAD = 6 := by decide

theorem new_sig_example_prefetch : new_sig 8193 access_type.PREFETCH = 6 := by decide

/-- C3. In every state reachable from the program start by initialisations, victim searches
and state updates (on sets and ways of the cache they are called on, with any access type, hit
flag, instruction pointer, core and random draw), every line of every cache holds a value in
`[0, maxRRPV]`. -/
theorem rrpv_stays_in_range (NUM_CPUS : Nat) (s : State) (h : Reachable NUM_CPUS s)
    (c : CACHE) (i : Nat) (x : Int) (hx : rrpv_read s c i = some x) :
    0 ≤ x ∧ x ≤ maxRRPV := by
  unfold rrpv_read at hx
  exact rrpv_in_range_reachable NUM_CPUS s h c x (List.getElem?_mem hx)

/-- The statement of C3 at the end of the example run. -/
theorem rrpv_stays_in_range_witness :
    Reachable 1 example_final ∧ rrpv_read example_final c2 (lineIdx c2 1 0) = some 3 ∧
      (0 : Int) ≤ 3 ∧ (3 : Int) ≤ maxRRPV := by
  have hread : rrpv_read example_final c2 (lineIdx c2 1 0) = some 3 := by
    rw [← set_lines_getElem c2 example_final 1 0 (by decide), example_final_facts.1]
    rfl
  exact ⟨example_final_reachable, hread,
    rrpv_stays_in_range 1 example_final example_final_reachable c2 _ 3 hread⟩

/-- C4. In every state reachable from the program start, every SHCT counter of every
`(cache, cpu)` key is at most `SHCT_MAX = 7`: the `unsigned` increment never goes above
`SHCT_MAX` and the `unsigned` decrement never wraps around below 0. -/
theorem shct_stays_in_range (NUM_CPUS : Nat) (s : State) (h : Reachable NUM_CPUS s)
    (c : CACHE) (cpu sig : Nat) : s.SHCT (c, cpu) sig ≤ SHCT_MAX :=
  shct_in_range_reachable NUM_CPUS s h (c, cpu) sig

/-- The statement of C4 at the end of the example run. -/
theorem shct_stays_in_range_witness :
    Reachable 1 example_final ∧ example_final.SHCT (c2, 0) 6 = 7 ∧
      example_final.SHCT (c2, 0) 6 ≤ SHCT_MAX :=
  ⟨example_final_reachable, example_final_facts.2.1,
    shct_stays_in_range 1 example_final example_final_reachable c2 0 6⟩

/-! ## Lines left alone -/

theorem lineIdx_ne (c : CACHE) (set set' way way' : Nat) (hway : way < c.NUM_WAY)
    (hway' : way' < c.NUM_WAY) (h : set' ≠ set ∨ way' ≠ way) :
    lineIdx c set' way' ≠ lineIdx c set way := by
  unfold lineIdx
  intro heq
  rcases Nat.lt_trichotomy set' set with hlt | heq' | hgt
  · have := Nat.mul_le_mul_right c.NUM_WAY (Nat.succ_le_of_lt hlt)
    rw [Nat.succ_mul] at this
    omega
  · subst heq'
    rcases h with h | h
    · exact h rfl
    · omega
  · have := Nat.mul_le_mul_right c.NUM_WAY (Nat.succ_le_of_lt hgt)
    rw [Nat.succ_mul] at this
    omega

theorem splice_getElem_outside (v : List Int) (b w i : Nat) (out : List Int)
    (hb : b + w ≤ v.length) (hout : out.length = w) (hi : i < b ∨ b + w ≤ i) :
    (splice v b w out)[i]? = v[i]? := by
  unfold splice
  have h1 : (v.take b).length = b := by rw [List.length_take]; omega
  rcases hi with hi | hi
  · rw [List.append_assoc, List.getElem?_append_left (by omega), List.getElem?_take_of_lt hi]
  · rw [List.getElem?_append_right (by simp; omega), List.getElem?_drop]
    congr 1
    simp only [List.length_append, h1, hout]
    omega

theorem find_victim_frame {fuel : Nat} {c c' : CACHE} {set set' way way' : Nat} {s s' : State}
    (h : find_victim fuel c' set' s = some (way', s')) (hway : way < c.NUM_WAY)
    (hne : c' ≠ c ∨ set' ≠ set) :
    rrpv_read s' c (lineIdx c set way) = rrpv_read s c (lineIdx c set way) ∧
    prefetch_read s' c (lineIdx c set way) = prefetch_read s c (lineIdx c set way) := by
  obtain ⟨hb, passes, out, hloop, _, rfl⟩ := find_victim_some h
  refine ⟨?_, rfl⟩
  unfold rrpv_read
  by_cases hc : c = c'
  · subst hc
    have hset : set' ≠ set := by
      rcases hne with h | h
      · exact absurd rfl h
      · exact h
    simp only [Function.update_same]
    apply splice_getElem_outside _ _ _ _ _ hb
    · rw [find_victim_loop_length _ _ _ _ hloop, set_lines_length c s set' hb]
    · unfold lineIdx
      rcases Nat.lt_or_gt_of_ne hset with hlt | hgt
      · right
        have := Nat.mul_le_mul_right c.NUM_WAY (Nat.succ_le_of_lt hlt)
        rw [Nat.succ_mul] at this
        omega
      · left
        have := Nat.mul_le_mul_right c.NUM_WAY (Nat.succ_le_of_lt hgt)
        rw [Nat.succ_mul] at this
        omega
  · simp only [Function.update_noteq hc]

theorem untouched_frame {c : CACHE} {set way : Nat} {s s' : State}
    (h : Untouched c set way s s') (hway : way < c.NUM_WAY) :
    rrpv_read s' c (lineIdx c set way) = rrpv_read s c (lineIdx c set way) ∧
    prefetch_read s' c (lineIdx c set way) = prefetch_read s c (lineIdx c set way) := by
  induction h with
  | refl => exact ⟨rfl, rfl⟩
  | update c' cpu set' way' ip type hit rnd s s' s'' _ hway' hne hu ih =>
    have hline : c' ≠ c ∨ lineIdx c' set' way' ≠ lineIdx c set way := by
      by_cases hc : c' = c
      · subst hc
        right
        apply lineIdx_ne _ _ _ _ _ hway hway'
        rcases hne with h | h | h
        · exact absurd rfl h
        · exact Or.inl h
        · exact Or.inr h
      · exact Or.inl hc
    exact update_preserves (preserved_line c c' _ _ _ _ hline) hu ih
  | victim fuel c' set' way' s s' s'' _ hne hv ih =>
    have := find_victim_frame hv hway hne
    exact ⟨this.1.trans ih.1, this.2.trans ih.2⟩

theorem insert_rrpv_is_prefetch {c : CACHE} {key : CACHE × Nat} {set way nsig : Nat}
    {type : access_type} {s s' : State}
    (h : insert_rrpv c key set way nsig type s = some s') : s'.is_prefetch = s.is_prefetch := by
  unfold insert_rrpv at h
  split at h
  · exact absurd h (by simp)
  · rw [(rrpv_write_some h).2]; rfl
  · split at h
    · exact absurd h (by simp)
    · split at h <;> (rw [(rrpv_write_some h).2]; rfl)

theorem miss_path_prefetch {c : CACHE} {cpu set way ip sig : Nat} {type : access_type}
    {s s' : State} (h : miss_path c cpu set way ip type sig s = some s') :
    prefetch_read s' c (lineIdx c set way) = some (decide (type = access_type.PREFETCH)) := by
  unfold miss_path at h
  simp only at h
  split at h
  · exact absurd h (by simp)
  · next s1 _ =>
    split at h
    · exact absurd h (by simp)
    · next s2 h2 =>
      obtain ⟨hlt, rfl⟩ := prefetch_write_some h2
      unfold prefetch_read
      rw [insert_rrpv_is_prefetch h]
      exact prefetch_read_put_prefetch _ hlt

theorem update_miss_prefetch {c : CACHE} {cpu set way ip hit rnd : Nat} {type : access_type}
    {s s' : State} (h : update_replacement_state c cpu set way ip type hit rnd s = some s')
    (hmiss : ¬ (hit ≠ 0 ∧ type ≠ access_type.WRITE)) :
    prefetch_read s' c (lineIdx c set way) = some (decide (type = access_type.PREFETCH)) := by
  unfold update_replacement_state at h
  split at h
  · exact absurd h (by simp)
  · rw [if_neg hmiss] at h
    exact miss_path_prefetch h

theorem SAT_INC_eq (x : Nat) :
    SAT_INC x SHCT_MAX = if x < SHCT_MAX then x + 1 else x := by
  unfold SAT_INC SHCT_MAX at *
  split
  · exact Nat.mod_eq_of_lt (by omega)
  · rfl

theorem hit_demand_result_sampler {c : CACHE} {s : State} {set way : Nat} (cpu : Nat)
    {e : SAMPLER_class} (b : Bool)
    (he : sampler_read s c (sampler_loc c s set way) = some e)
    (hsam : is_sample c s set = true) (hre : e.reuse = false) :
    sampler_read (hit_demand_result c cpu set way e b s) c (sampler_loc c s set way)
      = some { e with reuse := true } := by
  unfold hit_demand_result
  simp only [hsam, hre, and_self, if_true]
  apply sampler_read_put_sampler (e := e)
  cases b <;> simpa using he

/-- C8, as stated, fails.  At the end of the example run, a reachable state in which the
counter of signature 6 is at `SHCT_MAX`, a `PREFETCH` miss on line `(1, 0)` with that signature
inserts the line at 0, and the demand hit that follows immediately leaves it at `maxRRPV`,
not at 0. -/
theorem prefetch_fill_demand_hit_counterexample :
    Reachable 1 example_final ∧
    example_final.SHCT (c2, 0) (new_sig 8193 access_type.PREFETCH) = SHCT_MAX ∧
    ∃ s' s'',
      update_replacement_state c2 0 1 0 8193 access_type.PREFETCH 0 0 example_final = some s' ∧
      rrpv_read s' c2 (lineIdx c2 1 0) = some 0 ∧
      update_replacement_state c2 0 1 0 8193 access_type.LOAD 1 0 s' = some s'' ∧
      rrpv_read s'' c2 (lineIdx c2 1 0) = some maxRRPV ∧
      rrpv_read s'' c2 (lineIdx c2 1 0) ≠ some 0 := by
  have hok := example_final_defined
  have hctr : example_final.SHCT (c2, 0) (new_sig 8193 access_type.PREFETCH) = SHCT_MAX := by
    rw [new_sig_example_prefetch]; exact example_final_facts.2.1
  have hok' := update_defined_after_miss 0 8193 access_type.PREFETCH hok
  have hpf : prefetch_read
      (miss_result c2 0 1 0 8193 access_type.PREFETCH ⟨true, 6⟩ example_final) c2
      (lineIdx c2 1 0) = some true :=
    miss_result_prefetch 0 8193 access_type.PREFETCH ⟨true, 6⟩ hok.2.1
  have hr'' := hit_demand_result_rrpv 0 ⟨false, new_sig 8193 access_type.PREFETCH⟩ true hok'.1
  rw [if_pos rfl] at hr''
  refine ⟨example_final_reachable, hctr, _, _, update_miss_eq 0 8193 0 hok (by decide), ?_,
    update_hit_demand_eq 0 8193 0 hok' (by decide) (by decide) hpf (by decide), hr'', ?_⟩
  · rw [miss_result_rrpv 0 8193 access_type.PREFETCH ⟨true, 6⟩ hok.1, miss_result_counter]
    simp only [Bool.true_eq_false, false_and, and_false, if_false, hctr]
    exact congrArg some (by decide)
  · rw [hr'']
    decide

/-- C9, as stated, fails.  At the end of the example run, a reachable state, a demand miss on
line `(1, 0)` of the sampled set 1 inserts the line at 0 (the counter of its signature is at
`SHCT_MAX`) and leaves a sampler entry with `reuse = false`; the demand hit by the same core
that follows leaves the counter at `SHCT_MAX` instead of increasing it by one. -/
theorem saturated_counter_demand_hit_counterexample :
    Reachable 1 example_final ∧
    ∃ s' s'',
      update_replacement_state c2 0 1 0 3 access_type.LOAD 0 0 example_final = some s' ∧
      rrpv_read s' c2 (lineIdx c2 1 0) = some 0 ∧
      is_sample c2 s' 1 = true ∧
      sampler_read s' c2 (sampler_loc c2 s' 1 0) = some ⟨false, 6⟩ ∧
      s'.SHCT (c2, 0) 6 = SHCT_MAX ∧
      update_replacement_state c2 0 1 0 3 access_type.LOAD 1 0 s' = some s'' ∧
      s''.SHCT (c2, 0) 6 = SHCT_MAX ∧
      s''.SHCT (c2, 0) 6 ≠ s'.SHCT (c2, 0) 6 + 1 := by
  have hok := example_final_defined
  have hfacts := example_final_facts
  have hctr : example_final.SHCT (c2, 0) 6 = SHCT_MAX := hfacts.2.1
  have hok' := update_defined_after_miss 0 3 access_type.LOAD hok
  rw [new_sig_example_load] at hok'
  have hsam' : is_sample c2 (miss_result c2 0 1 0 3 access_type.LOAD ⟨true, 6⟩ example_final) 1
      = true := by rw [miss_result_is_sample]; exact hfacts.2.2.1
  have hpf : prefetch_read
      (miss_result c2 0 1 0 3 access_type.LOAD ⟨true, 6⟩ example_final) c2
      (lineIdx c2 1 0) = some false :=
    miss_result_prefetch 0 3 access_type.LOAD ⟨true, 6⟩ hok.2.1
  have hctr' : (miss_result c2 0 1 0 3 access_type.LOAD ⟨true, 6⟩ example_final).SHCT (c2, 0) 6
      = SHCT_MAX := by
    have := miss_result_counter c2 0 1 0 3 access_type.LOAD ⟨true, 6⟩ example_final
    rw [new_sig_example_load] at this
    simp only [Bool.true_eq_false, false_and, and_false, if_false, hctr] at this
    exact this
  have hctr'' : (hit_demand_result c2 0 1 0 ⟨false, 6⟩ false
      (miss_result c2 0 1 0 3 access_type.LOAD ⟨true, 6⟩ example_final)).SHCT (c2, 0) 6
      = SHCT_MAX := by
    rw [hit_demand_result_counter c2 0 1 0 6 false _ hsam', hctr']
    decide
  refine ⟨example_final_reachable, _, _, update_miss_eq 0 3 0 hok (by decide), ?_, hsam',
    (hok'.2.2 hsam').1, hctr',
    update_hit_demand_eq 0 3 0 hok' (by decide) (by decide) hpf (by decide), hctr'', ?_⟩
  · rw [miss_result_rrpv 0 3 access_type.LOAD ⟨true, 6⟩ hok.1, miss_result_counter,
      new_sig_example_load]
    simp only [Bool.true_eq_false, false_and, and_false, if_false, hctr]
    exact congrArg some (by decide)
  · rw [hctr'', hctr']
    decide

/-- C8, amended. A line filled by a miss-path call of `update_replacement_state` whose access
type is not `PREFETCH`, inserted at 0 and left alone since (only other lines were updated, only
other sets were searched), is left at 0 by a hit with an access type that is neither `WRITE`
nor `PREFETCH`. -/
theorem demand_hit_keeps_zero (c : CACHE) (cpu cpu' set way ip ip' hit hit' rnd rnd' : Nat)
    (type type' : access_type) (e : SAMPLER_class) (s s1 s2 : State)
    (hway : way < c.NUM_WAY)
    (hmiss : ¬ (hit ≠ 0 ∧ type ≠ access_type.WRITE))
    (hnp : type ≠ access_type.PREFETCH)
    (hfill : update_replacement_state c cpu set way ip type hit rnd s = some s1)
    (hzero : rrpv_read s1 c (lineIdx c set way) = some 0)
    (hun : Untouched c set way s1 s2)
    (hok : update_defined c s2 set way e)
    (hhit : hit' ≠ 0) (hw : type' ≠ access_type.WRITE) (hp : type' ≠ access_type.PREFETCH) :
    ∃ s3, update_replacement_state c cpu' set way ip' type' hit' rnd' s2 = some s3 ∧
      rrpv_read s3 c (lineIdx c set way) = some 0 := by
  have hpf1 := update_miss_prefetch hfill hmiss
  have hpf2 : prefetch_read s2 c (lineIdx c set way) = some false := by
    rw [(untouched_frame hun hway).2, hpf1]
    simp [hnp]
  refine ⟨_, update_hit_demand_eq cpu' ip' rnd' hok hhit hw hpf2 (fun _ => rfl), ?_⟩
  rw [hit_demand_result_rrpv cpu' e false hok.1]
  rfl

/-- C9, amended. A demand hit on a line at 0 of a sampled set whose sampler entry has
`reuse = false` returns and applies the saturating increment to `SHCT[(c, cpu)][sig]`, `sig`
being the signature stored in that entry: the counter grows by exactly one when it is below
`SHCT_MAX` and keeps its value otherwise.  No other counter changes and the entry gets
`reuse = true`. -/
theorem demand_hit_trains_saturating (c : CACHE) (cpu set way ip hit rnd : Nat)
    (type : access_type) (e : SAMPLER_class) (s : State)
    (hok : update_defined c s set way e)
    (hzero : rrpv_read s c (lineIdx c set way) = some 0)
    (hsam : is_sample c s set = true) (hre : e.reuse = false)
    (hhit : hit ≠ 0) (hw : type ≠ access_type.WRITE) (hp : type ≠ access_type.PREFETCH) :
    ∃ s', update_replacement_state c cpu set way ip type hit rnd s = some s' ∧
      s'.SHCT (c, cpu) e.signature =
        (if s.SHCT (c, cpu) e.signature < SHCT_MAX then s.SHCT (c, cpu) e.signature + 1
         else s.SHCT (c, cpu) e.signature) ∧
      (∀ key sig, key ≠ (c, cpu) ∨ sig ≠ e.signature → s'.SHCT key sig = s.SHCT key sig) ∧
      sampler_read s' c (sampler_loc c s set way) = some { e with reuse := true } := by
  obtain ⟨b, hb⟩ : ∃ b, prefetch_read s c (lineIdx c set way) = some b := by
    unfold prefetch_read
    exact ⟨_, List.getElem?_eq_getElem hok.2.1⟩
  refine ⟨_, update_hit_demand_eq cpu ip rnd hok hhit hw hb (fun h => absurd h hp), ?_, ?_, ?_⟩
  · rw [hit_demand_result_SHCT]
    simp only [hsam, hre, and_self, if_true, put_shct_same]
    exact SAT_INC_eq _
  · intro key sig hne
    rw [hit_demand_result_SHCT]
    simp only [hsam, hre, and_self, if_true]
    exact put_shct_other _ _ _ _ _ _ hne
  · exact hit_demand_result_sampler cpu b (hok.2.2 hsam).1 hsam hre

/-- The statement of C10 for a load miss on line `(1, 2)` of `ex_state`. -/
theorem cold_insert_is_next_victim_witness :
    ex_state.SHCT (c1, 0) (new_sig 1 access_type.LOAD) = 0 ∧
    ∃ s', update_replacement_state c1 0 1 2 1 access_type.LOAD 0 0 ex_state = some s' ∧
      rrpv_read s' c1 (lineIdx c1 1 2) = some maxRRPV ∧
      find_victim_loop 0 (set_lines c1 s' 1) = some (0, set_lines c1 s' 1) ∧
      find_victim 0 c1 1 s' = some (2, s') :=
  ⟨by decide,
    cold_insert_is_next_victim c1 0 1 2 1 0 0 access_type.LOAD ⟨false, 0⟩ ex_state
      ⟨by decide, by decide, fun _ => ⟨rfl, by decide⟩⟩ (by decide) (by decide) (by decide)
      (by decide) (by decide) (by decide) (by decide) (by decide)⟩

/-- The statement of the amended C8: a load miss fills line `(1, 1)` of `ex_state` at 0, a
miss on line `(0, 0)` follows, and a load hit on line `(1, 1)` leaves it at 0. -/
theorem demand_hit_keeps_zero_witness :
    ∃ s3, update_replacement_state c1 0 1 1 3 access_type.LOAD 1 0
        (miss_result c1 0 0 0 1 access_type.LOAD {}
          (miss_result c1 0 1 1 3 access_type.LOAD ⟨true, 6⟩ ex_state)) = some s3 ∧
      rrpv_read s3 c1 (lineIdx c1 1 1) = some 0 :=
  demand_hit_keeps_zero c1 0 0 1 1 3 3 0 1 0 0 access_type.LOAD access_type.LOAD ⟨false, 6⟩
    ex_state (miss_result c1 0 1 1 3 access_type.LOAD ⟨true, 6⟩ ex_state)
    (miss_result c1 0 0 0 1 access_type.LOAD {}
      (miss_result c1 0 1 1 3 access_type.LOAD ⟨true, 6⟩ ex_state))
    (by decide) (by decide) (by decide)
    (update_miss_eq 0 3 0 ⟨by decide, by decide, fun _ => ⟨rfl, by decide⟩⟩ (by decide))
    (by decide)
    (Untouched.update c1 0 0 0 1 access_type.LOAD 0 0 _ _ _ (Untouched.refl _) (by decide)
      (Or.inr (Or.inl (by decide)))
      (update_miss_eq 0 1 0
        ⟨by decide, by decide, fun h => absurd h (by decide)⟩ (by decide)))
    ⟨by decide, by decide, fun _ => ⟨by decide, by decide⟩⟩
    (by decide) (by decide) (by decide)

/-- The statement of the amended C9 for a load hit on line `(1, 3)` of `ex_state`, whose
counter goes from 3 to 4. -/
theorem demand_hit_trains_saturating_witness :
    ex_state.SHCT (c1, 0) 10 = 3 ∧
    ∃ s', update_replacement_state c1 0 1 3 5 access_type.LOAD 1 0 ex_state = some s' ∧
      s'.SHCT (c1, 0) (SAMPLER_class.mk false 10).signature =
        (if ex_state.SHCT (c1, 0) (SAMPLER_class.mk false 10).signature < SHCT_MAX then
          ex_state.SHCT (c1, 0) (SAMPLER_class.mk false 10).signature + 1
         else ex_state.SHCT (c1, 0) (SAMPLER_class.mk false 10).signature) ∧
      (∀ key sig, key ≠ (c1, 0) ∨ sig ≠ (SAMPLER_class.mk false 10).signature →
        s'.SHCT key sig = ex_state.SHCT key sig) ∧
      sampler_read s' c1 (sampler_loc c1 ex_state 1 3)
        = some { (SAMPLER_class.mk false 10) with reuse := true } :=
  ⟨by decide,
    demand_hit_trains_saturating c1 0 1 3 5 1 0 access_type.LOAD ⟨false, 10⟩ ex_state
      ⟨by decide, by decide, fun _ => ⟨rfl, by decide⟩⟩ (by decide) (by decide) rfl
      (by decide) (by decide) (by decide)⟩

/-! ## Signatures -/

theorem new_sig_eq_use_PC (ip : Nat) (type : access_type) :
    new_sig ip type = use_PC ip type % SHCT_PRIME % 2 ^ 32 := rfl

theorem use_PC_prefetch (ip : Nat) :
    use_PC ip access_type.PREFETCH = (ip * 2) % 2 ^ 64 + 1 := by
  unfold use_PC
  simp only [if_true]
  omega

theorem use_PC_demand (ip : Nat) (type : access_type) (h : type ≠ access_type.PREFETCH) :
    use_PC ip type = (ip * 2) % 2 ^ 64 := by
  unfold use_PC
  rw [if_neg h]

/-- C14. For every instruction pointer, the signature of a `PREFETCH` access,
`((ip << 1) + 1) mod SHCT_PRIME`, differs from the signature of an access of any other type with
the same instruction pointer, `(ip << 1) mod SHCT_PRIME`, the shift being taken modulo `2^64`. -/
theorem prefetch_signature_differs (ip : Nat) (type : access_type)
    (h : type ≠ access_type.PREFETCH) :
    new_sig ip access_type.PREFETCH ≠ new_sig ip type ∧
    new_sig ip access_type.PREFETCH = ((ip * 2) % 2 ^ 64 + 1) % SHCT_PRIME ∧
    new_sig ip type = ((ip * 2) % 2 ^ 64) % SHCT_PRIME := by
  rw [new_sig_eq_use_PC, new_sig_eq_use_PC, use_PC_prefetch, use_PC_demand ip type h]
  generalize (ip * 2) % 2 ^ 64 = x
  have h1 : (x + 1) % SHCT_PRIME % 2 ^ 32 = (x + 1) % SHCT_PRIME :=
    Nat.mod_eq_of_lt (lt_trans (Nat.mod_lt _ (by decide)) (by decide))
  have h2 : x % SHCT_PRIME % 2 ^ 32 = x % SHCT_PRIME :=
    Nat.mod_eq_of_lt (lt_trans (Nat.mod_lt _ (by decide)) (by decide))
  rw [h1, h2]
  refine ⟨?_, rfl, rfl⟩
  unfold SHCT_PRIME
  omega

/-- The statement of C14 at instruction pointer 8193. -/
theorem prefetch_signature_differs_witness :
    new_sig 8193 access_type.PREFETCH ≠ new_sig 8193 access_type.LOAD ∧
    new_sig 8193 access_type.PREFETCH = ((8193 * 2) % 2 ^ 64 + 1) % SHCT_PRIME ∧
    new_sig 8193 access_type.LOAD = ((8193 * 2) % 2 ^ 64) % SHCT_PRIME :=
  prefetch_signature_differs 8193 access_type.LOAD (by decide)

/-- C15, as stated, fails: the `PREFETCH` access at instruction pointer 8193 and the `LOAD` at
instruction pointer 3 both get signature 6. -/
theorem signature_spaces_overlap_counterexample :
    new_sig 8193 access_type.PREFETCH = 6 ∧ new_sig 3 access_type.LOAD = 6 ∧
    ¬ (∀ ip1 ip2 : Nat, new_sig ip1 access_type.PREFETCH ≠ new_sig ip2 access_type.LOAD) := by
  refine ⟨new_sig_example_prefetch, new_sig_example_load, ?_⟩
  intro h
  exact h 8193 3 (new_sig_example_prefetch.trans new_sig_example_load.symm)

/-- C15, amended. The tagged values are disjoint: for every pair of instruction pointers the
value `use_PC` of a `PREFETCH` access is odd and that of any other access is even, so the two
differ; the signatures, taken modulo `SHCT_PRIME`, coincide exactly when the two tagged values
are congruent modulo `SHCT_PRIME`. -/
theorem tagged_values_disjoint (ip1 ip2 : Nat) (type : access_type)
    (h : type ≠ access_type.PREFETCH) :
    use_PC ip1 access_type.PREFETCH ≠ use_PC ip2 type ∧
    use_PC ip1 access_type.PREFETCH % 2 = 1 ∧ use_PC ip2 type % 2 = 0 ∧
    (new_sig ip1 access_type.PREFETCH = new_sig ip2 type ↔
      use_PC ip1 access_type.PREFETCH % SHCT_PRIME = use_PC ip2 type % SHCT_PRIME) := by
  rw [new_sig_eq_use_PC, new_sig_eq_use_PC, use_PC_prefetch, use_PC_demand ip2 type h]
  generalize hx : ip1 * 2 % 2 ^ 64 = x
  generalize hy : ip2 * 2 % 2 ^ 64 = y
  have hxe : x % 2 = 0 := by omega
  have hye : y % 2 = 0 := by omega
  have h1 : (x + 1) % SHCT_PRIME % 2 ^ 32 = (x + 1) % SHCT_PRIME :=
    Nat.mod_eq_of_lt (lt_trans (Nat.mod_lt _ (by decide)) (by decide))
  have h2 : y % SHCT_PRIME % 2 ^ 32 = y % SHCT_PRIME :=
    Nat.mod_eq_of_lt (lt_trans (Nat.mod_lt _ (by decide)) (by decide))
  rw [h1, h2]
  refine ⟨by omega, by omega, hye, Iff.rfl⟩

/-! ## Sampled-set selection -/

theorem lower_bound_cons (a : Nat) (t : List Nat) (val : Nat) :
    lower_bound (a :: t) val = if a < val then lower_bound t val + 1 else 0 := by
  unfold lower_bound
  by_cases h : a < val
  · simp [List.takeWhile_cons, h]
  · simp [List.takeWhile_cons, h]

theorem sorted_insert_spec (val : Nat) :
    ∀ v : List Nat, v.Pairwise (fun a b => a < b) → v[lower_bound v val]? ≠ some val →
      (sorted_insert v val).Pairwise (fun a b => a < b) ∧
      (∀ x, x ∈ sorted_insert v val ↔ x = val ∨ x ∈ v) ∧
      (sorted_insert v val).length = v.length + 1 := by
  intro v
  induction v with
  | nil =>
    intro _ _
    simp [sorted_insert, lower_bound]
  | cons a t ih =>
    intro hs hne
    rw [List.pairwise_cons] at hs
    by_cases h : a < val
    · have hlb : lower_bound (a :: t) val = lower_bound t val + 1 := by
        rw [lower_bound_cons, if_pos h]
      rw [hlb] at hne
      simp only [List.getElem?_cons_succ] at hne
      obtain ⟨ih1, ih2, ih3⟩ := ih hs.2 hne
      have hins : sorted_insert (a :: t) val = a :: sorted_insert t val := by
        simp [sorted_insert, hlb]
      rw [hins]
      refine ⟨?_, ?_, ?_⟩
      · rw [List.pairwise_cons]
        refine ⟨?_, ih1⟩
        intro x hx
        rcases (ih2 x).mp hx with rfl | hx
        · exact h
        · exact hs.1 x hx
      · intro x
        simp only [List.mem_cons, ih2]
        tauto
      · simp [ih3]
    · have hlb : lower_bound (a :: t) val = 0 := by
        rw [lower_bound_cons, if_neg h]
      rw [hlb] at hne
      have hav : a ≠ val := by simpa using hne
      have hins : sorted_insert (a :: t) val = val :: a :: t := by
        simp [sorted_insert, hlb]
      rw [hins]
      refine ⟨?_, ?_, ?_⟩
      · rw [List.pairwise_cons, List.pairwise_cons]
        refine ⟨?_, hs⟩
        intro x hx
        rcases List.mem_cons.mp hx with rfl | hx
        · omega
        · have := hs.1 x hx; omega
      · intro x
        simp
      · simp

theorem retry_loop_some (NUM_SET : Nat) (v : List Nat) :
    ∀ (fuel rand_seed seed val : Nat), retry_loop NUM_SET v fuel rand_seed = some (seed, val) →
      val = draw seed NUM_SET ∧ v[lower_bound v val]? ≠ some val := by
  intro fuel
  induction fuel with
  | zero =>
    intro rand_seed seed val h
    simp only [retry_loop] at h
    split at h
    · exact absurd h (by simp)
    · next hne =>
      simp only [Option.some.injEq, Prod.mk.injEq] at h
      obtain ⟨rfl, rfl⟩ := h
      exact ⟨rfl, hne⟩
  | succ f ih =>
    intro rand_seed seed val h
    simp only [retry_loop] at h
    split at h
    · exact ih _ _ _ h
    · next hne =>
      simp only [Option.some.injEq, Prod.mk.injEq] at h
      obtain ⟨rfl, rfl⟩ := h
      exact ⟨rfl, hne⟩

theorem sample_loop_invariant (fuel NUM_SET : Nat) :
    ∀ (n : Nat) (v : List Nat) (rand_seed : Nat) (out : List Nat),
      sample_loop fuel NUM_SET n v rand_seed = some out → sample_invariant NUM_SET v →
      sample_invariant NUM_SET out ∧ out.length = v.length + n := by
  intro n
  induction n with
  | zero =>
    intro v rand_seed out h hinv
    simp only [sample_loop, Option.some.injEq] at h
    subst h
    exact ⟨hinv, rfl⟩
  | succ n ih =>
    intro v rand_seed out h hinv
    simp only [sample_loop] at h
    split at h
    · exact absurd h (by simp)
    · next hN =>
      split at h
      · exact absurd h (by simp)
      · next seed val hretry =>
        obtain ⟨hval, hne⟩ := retry_loop_some NUM_SET v fuel rand_seed seed val hretry
        obtain ⟨h1, h2, h3⟩ := sorted_insert_spec val v hinv.1 hne
        have hinv' : sample_invariant NUM_SET (sorted_insert v val) := by
          refine ⟨h1, ?_⟩
          intro x hx
          rcases (h2 x).mp hx with rfl | hx
          · rw [hval]; exact Nat.mod_lt _ (Nat.pos_of_ne_zero hN)
          · exact hinv.2 x hx
        obtain ⟨r1, r2⟩ := ih (sorted_insert v val) seed out h hinv'
        refine ⟨r1, ?_⟩
        rw [r2, h3]
        omega

theorem sample_invariant_length (NUM_SET : Nat) (v : List Nat)
    (h : sample_invariant NUM_SET v) : v.length ≤ NUM_SET := by
  have hnd : v.Nodup := h.1.imp (fun hab => Nat.ne_of_lt hab)
  have hsub : v.toFinset ⊆ Finset.range NUM_SET := by
    intro x hx
    rw [List.mem_toFinset] at hx
    exact Finset.mem_range.mpr (h.2 x hx)
  have := Finset.card_le_card hsub
  rwa [List.toFinset_card_of_nodup hnd, Finset.card_range] at this

theorem example_init_some :
    initialize_replacement 1 64 c2 State.start = some example_init := by
  have h := example_run_some
  unfold example_run at h
  cases h0 : initialize_replacement 1 64 c2 State.start with
  | none => rw [h0] at h; exact absurd h (by simp)
  | some s0 =>
    unfold example_init
    rw [h0]
    rfl

theorem sample_invariant_nil (NUM_SET : Nat) : sample_invariant NUM_SET [] :=
  ⟨List.Pairwise.nil, fun x hx => absurd hx (List.not_mem_nil x)⟩

theorem sample_invariant_nodup (NUM_SET : Nat) (v : List Nat)
    (h : sample_invariant NUM_SET v) : v.Nodup :=
  h.1.imp (fun hab => Nat.ne_of_lt hab)

/-- C11. When the first initialisation of a cache with at least one set returns, its
sampled-set index is strictly increasing (hence free of repeats), every entry is below
`NUM_SET`, and it has exactly `SAMPLER_SET` entries.  The property is a loop invariant: from any
vector that satisfies it, `k` further iterations of the outer loop that return leave a vector
that satisfies it and is `k` entries longer. -/
theorem sampled_sets_sorted_distinct (NUM_CPUS fuel : Nat) (c : CACHE) (s s' : State)
    (hN : 1 ≤ c.NUM_SET) (hempty : s.rand_sets c = [])
    (h : initialize_replacement NUM_CPUS fuel c s = some s') :
    ((s'.rand_sets c).Pairwise (fun a b => a < b) ∧ (s'.rand_sets c).Nodup ∧
      (∀ x ∈ s'.rand_sets c, x < c.NUM_SET) ∧
      (s'.rand_sets c).length = SAMPLER_SET NUM_CPUS) ∧
    ∀ (k : Nat) (v : List Nat) (rand_seed : Nat) (out : List Nat),
      sample_invariant c.NUM_SET v →
      sample_loop fuel c.NUM_SET k v rand_seed = some out →
      sample_invariant c.NUM_SET out ∧ out.Nodup ∧ out.length = v.length + k := by
  constructor
  · have hloop := (initialize_replacement_some h).2.2.2.2.1
    rw [hempty] at hloop
    obtain ⟨hinv, hlen⟩ := sample_loop_invariant fuel c.NUM_SET _ _ _ _ hloop
      (sample_invariant_nil _)
    exact ⟨hinv.1, sample_invariant_nodup _ _ hinv, hinv.2, by simpa using hlen⟩
  · intro k v rand_seed out hinv hloop
    obtain ⟨h1, h2⟩ := sample_loop_invariant fuel c.NUM_SET k v rand_seed out hloop hinv
    exact ⟨h1, sample_invariant_nodup _ _ h1, h2⟩

/-- The statement of C11 for the initialisation of `c2` at the program start. -/
theorem sampled_sets_sorted_distinct_witness :
    ((example_init.rand_sets c2).Pairwise (fun a b => a < b) ∧
      (example_init.rand_sets c2).Nodup ∧
      (∀ x ∈ example_init.rand_sets c2, x < c2.NUM_SET) ∧
      (example_init.rand_sets c2).length = SAMPLER_SET 1) ∧
    ∀ (k : Nat) (v : List Nat) (rand_seed : Nat) (out : List Nat),
      sample_invariant c2.NUM_SET v →
      sample_loop 64 c2.NUM_SET k v rand_seed = some out →
      sample_invariant c2.NUM_SET out ∧ out.Nodup ∧ out.length = v.length + k :=
  sampled_sets_sorted_distinct 1 64 c2 State.start example_init (by decide) rfl
    example_init_some

/-- C12 fails on the code: when the cache has fewer sets than `SAMPLER_SET`, the first
initialisation returns for no amount of fuel, since the collision loop cannot exit once every
set index is taken. -/
theorem init_without_enough_sets (NUM_CPUS fuel : Nat) (c : CACHE) (s : State)
    (hempty : s.rand_sets c = []) (hlt : c.NUM_SET < SAMPLER_SET NUM_CPUS) :
    initialize_replacement NUM_CPUS fuel c s = none := by
  cases h : initialize_replacement NUM_CPUS fuel c s with
  | none => rfl
  | some s' =>
    have hloop := (initialize_replacement_some h).2.2.2.2.1
    rw [hempty] at hloop
    obtain ⟨hinv, hlen⟩ := sample_loop_invariant fuel c.NUM_SET _ _ _ _ hloop
      (sample_invariant_nil _)
    have := sample_invariant_length _ _ hinv
    rw [hlen] at this
    simp only [List.length_nil, Nat.zero_add] at this
    omega

/-- The statement of C12's failure for a cache of 8 sets of 4 ways on one core. -/
theorem init_without_enough_sets_witness :
    (⟨0, 8, 4⟩ : CACHE).NUM_SET < SAMPLER_SET 1 ∧
    initialize_replacement 1 1000000 ⟨0, 8, 4⟩ State.start = none :=
  ⟨by decide, init_without_enough_sets 1 1000000 ⟨0, 8, 4⟩ State.start rfl (by decide)⟩

/-! ## Calls outside and inside the sampled sets -/

theorem sampler_read_put_sampler_other (s : State) (c c' : CACHE) (loc j : Nat)
    (e : SAMPLER_class) (h : c' ≠ c ∨ j ≠ loc) :
    sampler_read (put_sampler s c loc e) c' j = sampler_read s c' j := by
  unfold sampler_read put_sampler
  by_cases hc : c' = c
  · subst hc
    have hj : loc ≠ j := by
      rcases h with h | h
      · exact absurd rfl h
      · exact Ne.symm h
    simp only [Function.update_same]
    cases hv : s.sampler c' with
    | none => rfl
    | some v => simp [List.getElem?_set_ne hj]
  · simp only [Function.update_noteq hc]

theorem miss_result_unsampled (c : CACHE) (cpu set way ip : Nat) (type : access_type)
    (e : SAMPLER_class) (s : State) (h : is_sample c s set = false) :
    miss_result c cpu set way ip type e s =
      put_rrpv (put_prefetch s c (lineIdx c set way) (decide (type = access_type.PREFETCH))) c
        (lineIdx c set way) (insertion type (s.SHCT (c, cpu) (new_sig ip type))) := by
  unfold miss_result
  simp only [h, Bool.false_eq_true, if_false, SHCT_put_prefetch]

theorem hit_demand_result_untrained (c : CACHE) (cpu set way : Nat) (e : SAMPLER_class)
    (b : Bool) (s : State) (h : ¬ (is_sample c s set = true ∧ e.reuse = false)) :
    hit_demand_result c cpu set way e b s =
      if b = true then
        put_prefetch (put_rrpv (put_rrpv s c (lineIdx c set way) 0) c (lineIdx c set way)
          maxRRPV) c (lineIdx c set way) false
      else put_rrpv s c (lineIdx c set way) 0 := by
  unfold hit_demand_result
  simp only [if_neg h]

theorem hit_prefetch_result_untrained (c : CACHE) (cpu set way rnd : Nat) (e : SAMPLER_class)
    (s : State) (h : ¬ (is_sample c s set = true ∧ rnd % 100 < 5)) :
    hit_prefetch_result c cpu set way rnd e s = s := by
  unfold hit_prefetch_result
  rw [if_neg h]

theorem update_frame {c : CACHE} {cpu set way ip hit rnd : Nat} {type : access_type}
    {s s' : State} (h : update_replacement_state c cpu set way ip type hit rnd s = some s')
    (c' : CACHE) (i : Nat) (hne : c' ≠ c ∨ i ≠ lineIdx c set way) :
    rrpv_read s' c' i = rrpv_read s c' i ∧ prefetch_read s' c' i = prefetch_read s c' i := by
  have hline : c ≠ c' ∨ lineIdx c set way ≠ i := by
    rcases hne with h | h
    · exact Or.inl (Ne.symm h)
    · exact Or.inr (Ne.symm h)
  exact update_preserves (preserved_line c' c i _ _ _ hline) h ⟨rfl, rfl⟩

/-- C16. A call of `update_replacement_state` (hit or miss, any access type, any draw) on a
set that is not sampled returns and leaves the sampler, every SHCT counter and the sampled-set
index as they were; the rrpv and the prefetch tag of every line other than `(set, way)` are
unchanged too. -/
theorem unsampled_update_frame (c : CACHE) (cpu set way ip hit rnd : Nat) (type : access_type)
    (s : State)
    (hr : lineIdx c set way < (s.rrpv_values c).length)
    (hp : lineIdx c set way < (s.is_prefetch c).length)
    (hns : is_sample c s set = false) :
    ∃ s', update_replacement_state c cpu set way ip type hit rnd s = some s' ∧
      s'.sampler = s.sampler ∧ s'.SHCT = s.SHCT ∧ s'.rand_sets = s.rand_sets ∧
      ∀ c' i, c' ≠ c ∨ i ≠ lineIdx c set way →
        rrpv_read s' c' i = rrpv_read s c' i ∧ prefetch_read s' c' i = prefetch_read s c' i := by
  have hok : update_defined c s set way {} :=
    ⟨hr, hp, fun h => absurd (hns ▸ h) (by simp)⟩
  have hnot : ∀ p : Prop, ¬ (is_sample c s set = true ∧ p) := by
    intro p hcontra
    rw [hns] at hcontra
    exact absurd hcontra.1 (by simp)
  obtain ⟨b, hb⟩ : ∃ b, prefetch_read s c (lineIdx c set way) = some b :=
    ⟨_, List.getElem?_eq_getElem hp⟩
  have key : ∃ s', update_replacement_state c cpu set way ip type hit rnd s = some s' ∧
      s'.sampler = s.sampler ∧ s'.SHCT = s.SHCT ∧ s'.rand_sets = s.rand_sets := by
    by_cases hhit : hit ≠ 0 ∧ type ≠ access_type.WRITE
    · by_cases hpp : type = access_type.PREFETCH ∧ b = true
      · obtain ⟨rfl, rfl⟩ := hpp
        refine ⟨_, update_hit_prefetch_eq cpu ip rnd hok hhit.1 hb, ?_⟩
        rw [hit_prefetch_result_untrained _ _ _ _ _ _ _ (hnot _)]
        exact ⟨rfl, rfl, rfl⟩
      · have hd : type = access_type.PREFETCH → b = false := by
          intro ht
          cases b
          · rfl
          · exact absurd ⟨ht, rfl⟩ hpp
        refine ⟨_, update_hit_demand_eq cpu ip rnd hok hhit.1 hhit.2 hb hd, ?_⟩
        rw [hit_demand_result_untrained _ _ _ _ _ _ _ (hnot _)]
        split <;> exact ⟨rfl, rfl, rfl⟩
    · refine ⟨_, update_miss_eq cpu ip rnd hok hhit, ?_⟩
      rw [miss_result_unsampled _ _ _ _ _ _ _ _ hns]
      exact ⟨rfl, rfl, rfl⟩
  obtain ⟨s', hs', h1, h2, h3⟩ := key
  exact ⟨s', hs', h1, h2, h3, fun c' i hne => update_frame hs' c' i hne⟩

theorem SAT_DEC_eq (x : Nat) (h : x < 2 ^ 32) : SAT_DEC x = x - 1 := by
  unfold SAT_DEC
  split <;> omega

theorem new_sig_formula (ip : Nat) (type : access_type) :
    new_sig ip type =
      ((ip * 2) % 2 ^ 64 + (if type = access_type.PREFETCH then 1 else 0)) % SHCT_PRIME := by
  unfold new_sig
  have hlt : ∀ x, x % SHCT_PRIME % 2 ^ 32 = x % SHCT_PRIME := fun x =>
    Nat.mod_eq_of_lt (lt_trans (Nat.mod_lt _ (by decide)) (by decide))
  rw [hlt]
  by_cases h : type = access_type.PREFETCH
  · simp only [h, if_true]
    have : ((ip * 2) % 2 ^ 64 + 1) % 2 ^ 64 = (ip * 2) % 2 ^ 64 + 1 := by omega
    rw [this]
  · simp only [h, if_false, Nat.add_zero]

theorem miss_result_sampler_other (c : CACHE) (cpu set way ip : Nat) (type : access_type)
    (e : SAMPLER_class) (s : State) (c' : CACHE) (j : Nat)
    (h : c' ≠ c ∨ j ≠ sampler_loc c s set way) :
    sampler_read (miss_result c cpu set way ip type e s) c' j = sampler_read s c' j := by
  unfold miss_result
  simp only [sampler_read_put_rrpv, sampler_read_put_prefetch]
  split
  · rw [sampler_read_put_sampler_other _ _ _ _ _ _ h]
    split
    · exact sampler_read_put_shct _ _ _ _ _ _
    · rfl
  · rfl

/-- C17. A miss-path call on a way of a sampled set returns; when the outgoing sampler entry
has `reuse = false` the counter `SHCT[(c, cpu)][old_sig]` is decremented by one, saturating at
0, and no other counter changes; when it has `reuse = true` no counter changes.  The sampler
entry becomes `{signature: new_sig, reuse: false}` with
`new_sig = ((ip << 1) + is_prefetch) mod SHCT_PRIME`, and every other sampler entry is
unchanged.  The counter is assumed to be an `unsigned` value. -/
theorem miss_retires_entry (c : CACHE) (cpu set way ip hit rnd : Nat) (type : access_type)
    (e : SAMPLER_class) (s : State)
    (hok : update_defined c s set way e) (hsam : is_sample c s set = true)
    (hmiss : ¬ (hit ≠ 0 ∧ type ≠ access_type.WRITE))
    (hu : s.SHCT (c, cpu) e.signature < 2 ^ 32) :
    ∃ s', update_replacement_state c cpu set way ip type hit rnd s = some s' ∧
      (e.reuse = false →
        s'.SHCT (c, cpu) e.signature = s.SHCT (c, cpu) e.signature - 1 ∧
        ∀ key sig, key ≠ (c, cpu) ∨ sig ≠ e.signature → s'.SHCT key sig = s.SHCT key sig) ∧
      (e.reuse = true → s'.SHCT = s.SHCT) ∧
      sampler_read s' c (sampler_loc c s set way) = some ⟨false, new_sig ip type⟩ ∧
      new_sig ip type =
        ((ip * 2) % 2 ^ 64 + (if type = access_type.PREFETCH then 1 else 0)) % SHCT_PRIME ∧
      ∀ c' j, c' ≠ c ∨ j ≠ sampler_loc c s set way →
        sampler_read s' c' j = sampler_read s c' j := by
  refine ⟨_, update_miss_eq cpu ip rnd hok hmiss, ?_, ?_,
    miss_result_sampler cpu ip type hsam (hok.2.2 hsam).1, new_sig_formula ip type,
    fun c' j h => miss_result_sampler_other c cpu set way ip type e s c' j h⟩
  · intro hre
    rw [miss_result_SHCT, if_pos ⟨hsam, hre⟩]
    refine ⟨?_, fun key sig h => put_shct_other _ _ _ _ _ _ h⟩
    rw [put_shct_same, SAT_DEC_eq _ hu]
  · intro hre
    rw [miss_result_SHCT, if_neg (by rw [hre]; simp)]

theorem hit_demand_result_sampler_kept {c : CACHE} {s : State} {set way : Nat} (cpu : Nat)
    {e : SAMPLER_class} (b : Bool)
    (he : sampler_read s c (sampler_loc c s set way) = some e)
    (hre : e.reuse = true) :
    sampler_read (hit_demand_result c cpu set way e b s) c (sampler_loc c s set way)
      = some e := by
  rw [hit_demand_result_untrained _ _ _ _ _ _ _ (by rw [hre]; simp)]
  cases b <;> simpa using he

theorem hit_demand_result_sampler_other (c : CACHE) (cpu set way : Nat) (e : SAMPLER_class)
    (b : Bool) (s : State) (c' : CACHE) (j : Nat)
    (h : c' ≠ c ∨ j ≠ sampler_loc c s set way) :
    sampler_read (hit_demand_result c cpu set way e b s) c' j = sampler_read s c' j := by
  unfold hit_demand_result
  simp only
  split
  · rw [sampler_read_put_sampler_other _ _ _ _ _ _ h, sampler_read_put_shct]
    cases b <;> simp
  · cases b <;> simp

theorem hit_prefetch_result_sampler {c : CACHE} {s : State} {set way : Nat} (cpu rnd : Nat)
    {e : SAMPLER_class}
    (he : sampler_read s c (sampler_loc c s set way) = some e) :
    sampler_read (hit_prefetch_result c cpu set way rnd e s) c (sampler_loc c s set way)
      = some (if is_sample c s set = true ∧ rnd % 100 < 5 then { e with reuse := true }
              else e) := by
  unfold hit_prefetch_result
  split
  · exact sampler_read_put_sampler (e := e) _ (by simpa using he)
  · exact he

theorem hit_prefetch_result_sampler_other (c : CACHE) (cpu set way rnd : Nat)
    (e : SAMPLER_class) (s : State) (c' : CACHE) (j : Nat)
    (h : c' ≠ c ∨ j ≠ sampler_loc c s set way) :
    sampler_read (hit_prefetch_result c cpu set way rnd e s) c' j = sampler_read s c' j := by
  unfold hit_prefetch_result
  split
  · rw [sampler_read_put_sampler_other _ _ _ _ _ _ h, sampler_read_put_shct]
  · rfl

theorem hit_prefetch_result_SHCT (c : CACHE) (cpu set way rnd : Nat) (e : SAMPLER_class)
    (s : State) :
    (hit_prefetch_result c cpu set way rnd e s).SHCT =
      if is_sample c s set = true ∧ rnd % 100 < 5 then
        (put_shct s (c, cpu) e.signature (SAT_INC (s.SHCT (c, cpu) e.signature) SHCT_MAX)).SHCT
      else s.SHCT := by
  unfold hit_prefetch_result
  split <;> rfl

/-- C13, amended. A hit-path call on a way of a sampled set returns and leaves the sampler
entry of that way with its signature; its reuse flag is either unchanged or set to `true`, never
cleared.  Every other sampler entry is unchanged. -/
theorem hit_keeps_signature (c : CACHE) (cpu set way ip hit rnd : Nat) (type : access_type)
    (e : SAMPLER_class) (s : State)
    (hok : update_defined c s set way e) (hsam : is_sample c s set = true)
    (hhit : hit ≠ 0) (hw : type ≠ access_type.WRITE) :
    ∃ s' e', update_replacement_state c cpu set way ip type hit rnd s = some s' ∧
      sampler_read s' c (sampler_loc c s set way) = some e' ∧
      e'.signature = e.signature ∧ (e'.reuse = e.reuse ∨ e'.reuse = true) ∧
      ∀ c' j, c' ≠ c ∨ j ≠ sampler_loc c s set way →
        sampler_read s' c' j = sampler_read s c' j := by
  have he := (hok.2.2 hsam).1
  obtain ⟨b, hb⟩ : ∃ b, prefetch_read s c (lineIdx c set way) = some b :=
    ⟨_, List.getElem?_eq_getElem hok.2.1⟩
  by_cases hpp : type = access_type.PREFETCH ∧ b = true
  · obtain ⟨rfl, rfl⟩ := hpp
    refine ⟨_, _, update_hit_prefetch_eq cpu ip rnd hok hhit hb,
      hit_prefetch_result_sampler cpu rnd he, ?_, ?_,
      fun c' j h => hit_prefetch_result_sampler_other c cpu set way rnd e s c' j h⟩
    · split <;> rfl
    · split
      · exact Or.inr rfl
      · exact Or.inl rfl
  · have hd : type = access_type.PREFETCH → b = false := by
      intro ht
      cases b
      · rfl
      · exact absurd ⟨ht, rfl⟩ hpp
    cases hre : e.reuse with
    | false =>
      exact ⟨_, _, update_hit_demand_eq cpu ip rnd hok hhit hw hb hd,
        hit_demand_result_sampler cpu b he hsam hre, rfl, Or.inr rfl,
        fun c' j h => hit_demand_result_sampler_other c cpu set way e b s c' j h⟩
    | true =>
      exact ⟨_, _, update_hit_demand_eq cpu ip rnd hok hhit hw hb hd,
        hit_demand_result_sampler_kept cpu b he hre, rfl, Or.inl hre,
        fun c' j h => hit_demand_result_sampler_other c cpu set way e b s c' j h⟩

/-- C18, amended. When the sampler entry of a sampled way has `reuse = true`, a hit-path call
on that line leaves every SHCT counter unchanged, except in the first hit branch (a `PREFETCH`
access on a line tagged as prefetched) when the draw is below 5: there the counter of the
stored signature gets the saturating increment whatever the reuse flag, and no other counter
changes. -/
theorem reuse_stops_training (c : CACHE) (cpu set way ip hit rnd : Nat) (type : access_type)
    (e : SAMPLER_class) (b : Bool) (s : State)
    (hok : update_defined c s set way e) (hsam : is_sample c s set = true)
    (hre : e.reuse = true) (hhit : hit ≠ 0) (hw : type ≠ access_type.WRITE)
    (hb : prefetch_read s c (lineIdx c set way) = some b) :
    ∃ s', update_replacement_state c cpu set way ip type hit rnd s = some s' ∧
      (¬ (type = access_type.PREFETCH ∧ b = true ∧ rnd % 100 < 5) → s'.SHCT = s.SHCT) ∧
      (type = access_type.PREFETCH ∧ b = true ∧ rnd % 100 < 5 →
        s'.SHCT (c, cpu) e.signature = SAT_INC (s.SHCT (c, cpu) e.signature) SHCT_MAX ∧
        ∀ key sig, key ≠ (c, cpu) ∨ sig ≠ e.signature → s'.SHCT key sig = s.SHCT key sig) := by
  by_cases hpp : type = access_type.PREFETCH ∧ b = true
  · obtain ⟨rfl, rfl⟩ := hpp
    refine ⟨_, update_hit_prefetch_eq cpu ip rnd hok hhit hb, ?_, ?_⟩
    · intro hn
      rw [hit_prefetch_result_SHCT, if_neg (fun h => hn ⟨rfl, rfl, h.2⟩)]
    · intro hy
      rw [hit_prefetch_result_SHCT, if_pos ⟨hsam, hy.2.2⟩]
      exact ⟨put_shct_same _ _ _ _, fun key sig h => put_shct_other _ _ _ _ _ _ h⟩
  · have hd : type = access_type.PREFETCH → b = false := by
      intro ht
      cases b
      · rfl
      · exact absurd ⟨ht, rfl⟩ hpp
    refine ⟨_, update_hit_demand_eq cpu ip rnd hok hhit hw hb hd, ?_, ?_⟩
    · intro _
      rw [hit_demand_result_SHCT, if_neg (by rw [hre]; simp)]
    · intro hy
      exact absurd ⟨hy.1, hy.2.1⟩ hpp

/-! ## Stored signatures -/

theorem sigs_in_range_put_sampler {s : State} {c : CACHE} {loc : Nat} {e0 e1 : SAMPLER_class}
    (hI : sigs_in_range s) (h0 : sampler_read s c loc = some e0)
    (h1 : e1.signature < SHCT_PRIME) : sigs_in_range (put_sampler s c loc e1) := by
  intro c' j e he
  by_cases h : c' = c ∧ j = loc
  · obtain ⟨rfl, rfl⟩ := h
    rw [sampler_read_put_sampler e1 h0] at he
    cases he
    exact h1
  · rw [sampler_read_put_sampler_other _ _ _ _ _ _ (by tauto)] at he
    exact hI _ _ _ he

theorem sigs_in_range_preserved (c : CACHE) (i : Nat) : Preserved sigs_in_range c i where
  shct_inc := by
    intro s key sig s' hs hI
    rw [(shct_modify_some hs).2]; exact hI
  shct_dec := by
    intro s key sig s' hs hI
    rw [(shct_modify_some hs).2]; exact hI
  reuse := by
    intro s loc b s' hs hI
    obtain ⟨e, he, rfl⟩ := sampler_modify_some hs
    exact sigs_in_range_put_sampler hI he (hI c loc e he)
  sig := by
    intro s loc ip type s' hs hI
    obtain ⟨e, he, rfl⟩ := sampler_modify_some hs
    exact sigs_in_range_put_sampler hI he (new_sig_lt ip type)
  prefetch := by
    intro s b s' hs hI
    rw [(prefetch_write_some hs).2]; exact hI
  rrpv := by
    intro s x s' _ hs hI
    rw [(rrpv_write_some hs).2]; exact hI

theorem sigs_in_range_emplace (m : CACHE → Option (List SAMPLER_class)) (c : CACHE) (n : Nat)
    (hm : ∀ c' v, m c' = some v → ∀ e ∈ v, e.signature < SHCT_PRIME) :
    ∀ c' v, sampler_emplace m c n c' = some v → ∀ e ∈ v, e.signature < SHCT_PRIME := by
  intro c' v hv e he
  unfold sampler_emplace at hv
  cases hmc : m c with
  | none =>
    rw [hmc] at hv
    simp only at hv
    by_cases hc : c' = c
    · subst hc
      simp only [Function.update_same, Option.some.injEq] at hv
      subst hv
      rw [(List.mem_replicate.mp he).2]
      decide
    · rw [Function.update_noteq hc] at hv
      exact hm _ _ hv e he
  | some w =>
    rw [hmc] at hv
    exact hm _ _ hv e he

theorem sigs_in_range_iff (s : State) :
    sigs_in_range s ↔ ∀ c v, s.sampler c = some v → ∀ e ∈ v, e.signature < SHCT_PRIME := by
  constructor
  · intro h c v hv e he
    obtain ⟨j, hj⟩ := List.mem_iff_getElem?.mp he
    exact h c j e (by simp [sampler_read, hv, hj])
  · intro h c loc e he
    unfold sampler_read at he
    cases hv : s.sampler c with
    | none => rw [hv] at he; exact absurd he (by simp)
    | some v =>
      rw [hv] at he
      exact h c v hv e (List.getElem?_mem he)

theorem sigs_in_range_reachable (n : Nat) (s : State) (h : Reachable n s) :
    sigs_in_range s := by
  induction h with
  | start =>
    intro c loc e he
    simp [sampler_read, State.start] at he
  | init fuel c s s' _ hinit ih =>
    rw [sigs_in_range_iff] at ih ⊢
    rw [(initialize_replacement_some hinit).2.2.1]
    exact sigs_in_range_emplace _ _ _ ih
  | victim fuel c set way s s' _ _ hv ih =>
    obtain ⟨_, _, _, _, _, rfl⟩ := find_victim_some hv
    exact ih
  | update c cpu set way ip type hit rnd s s' _ _ _ hu ih =>
    exact update_preserves (sigs_in_range_preserved c _) hu ih

theorem stored_sig_sampled {c : CACHE} {s : State} {set way sig : Nat}
    (hsam : is_sample c s set = true) (h : stored_sig c s set way = some sig) :
    ∃ e, sampler_read s c (sampler_loc c s set way) = some e ∧ e.signature = sig := by
  unfold stored_sig at h
  rw [if_pos hsam] at h
  split at h
  · exact absurd h (by simp)
  · next e he => exact ⟨e, he, Option.some.inj h⟩

/-- C19. In every reachable state every sampler entry holds a signature below `SHCT_PRIME`;
hence the stored signature read by a call on a sampled set, and the new signature of any call,
are below `SHCT_SIZE`, and the SHCT reads at those indices are inside the table. -/
theorem shct_index_in_table (NUM_CPUS : Nat) (s : State) (h : Reachable NUM_CPUS s) :
    (∀ c loc e, sampler_read s c loc = some e → e.signature < SHCT_PRIME) ∧
    (∀ c cpu set way sig, is_sample c s set = true → stored_sig c s set way = some sig →
      sig < SHCT_SIZE ∧ shct_read s (c, cpu) sig = some (s.SHCT (c, cpu) sig)) ∧
    (∀ c cpu ip type, new_sig ip type < SHCT_SIZE ∧
      shct_read s (c, cpu) (new_sig ip type) = some (s.SHCT (c, cpu) (new_sig ip type))) := by
  have hI := sigs_in_range_reachable NUM_CPUS s h
  refine ⟨hI, ?_, ?_⟩
  · intro c cpu set way sig hsam hsig
    obtain ⟨e, he, rfl⟩ := stored_sig_sampled hsam hsig
    have hlt : e.signature < SHCT_SIZE := lt_trans (hI _ _ _ he) (by decide)
    exact ⟨hlt, shct_read_eq hlt⟩
  · intro c cpu ip type
    exact ⟨new_sig_lt_size ip type, shct_read_eq (new_sig_lt_size ip type)⟩

/-! ## The second example run -/

theorem example_run_b_checked :
    (example_run_b.map fun s => decide (example_b_facts s)) = some true := by
  decide!

theorem example_run_b_some : example_run_b = some example_b := by
  have h := example_run_b_checked
  unfold example_b
  cases hr : example_run_b with
  | none => rw [hr] at h; exact absurd h (by simp)
  | some s => rfl

theorem example_b_holds : example_b_facts example_b := by
  have h := example_run_b_checked
  rw [example_run_b_some] at h
  simpa using h

theorem example_b_reachable : Reachable 1 example_b := by
  have h := example_run_b_some
  unfold example_run_b at h
  cases h0 : initialize_replacement 1 64 c2 State.start with
  | none => rw [h0] at h; exact absurd h (by simp)
  | some s0 =>
    rw [h0] at h
    simp only [Option.some_bind] at h
    cases h1 : update_replacement_state c2 0 1 0 0 access_type.PREFETCH 0 0 s0 with
    | none => rw [h1] at h; exact absurd h (by simp)
    | some s1 =>
      rw [h1] at h
      simp only [Option.some_bind] at h
      cases h2 : update_replacement_state c2 0 1 0 0 access_type.PREFETCH 1 0 s1 with
      | none => rw [h2] at h; exact absurd h (by simp)
      | some s2 =>
        rw [h2] at h
        simp only [Option.some_bind] at h
        have hr0 := Reachable.init 64 c2 _ _ Reachable.start h0
        have hr1 := Reachable.update c2 0 1 0 0 _ 0 0 _ _ hr0 (by decide) (by decide) h1
        have hr2 := Reachable.update c2 0 1 0 0 _ 1 0 _ _ hr1 (by decide) (by decide) h2
        exact Reachable.update c2 0 1 1 0 _ 0 0 _ _ hr2 (by decide) (by decide) h

theorem prefetch_read_lt {s : State} {c : CACHE} {i : Nat} {b : Bool}
    (h : prefetch_read s c i = some b) : i < (s.is_prefetch c).length := by
  unfold prefetch_read at h
  by_contra hge
  rw [List.getElem?_eq_none (by omega)] at h
  exact absurd h (by simp)

theorem example_b_defined_0 : update_defined c2 example_b 1 0 ⟨true, 1⟩ := by
  obtain ⟨_, hloc, _, he, _, _, hpf, _, hlen, _⟩ := example_b_holds
  exact ⟨hlen, prefetch_read_lt hpf, fun _ => ⟨by rw [hloc]; exact he, by decide⟩⟩

theorem example_b_defined_1 : update_defined c2 example_b 1 1 ⟨false, 1⟩ := by
  obtain ⟨_, _, hloc, _, he, _, _, hpf, _, hlen⟩ := example_b_holds
  exact ⟨hlen, prefetch_read_lt hpf, fun _ => ⟨by rw [hloc]; exact he, by decide⟩⟩

theorem hit_demand_result_sets_reuse {c : CACHE} {s : State} {set way : Nat} (cpu sig : Nat)
    (b : Bool) (he : sampler_read s c (sampler_loc c s set way) = some ⟨false, sig⟩)
    (hsam : is_sample c s set = true) :
    sampler_read (hit_demand_result c cpu set way ⟨false, sig⟩ b s) c (sampler_loc c s set way)
      = some ⟨true, sig⟩ :=
  hit_demand_result_sampler cpu b he hsam rfl

theorem hit_prefetch_result_counter (c : CACHE) (cpu set way rnd sig : Nat) (r : Bool)
    (s : State) (hsam : is_sample c s set = true) (hrnd : rnd % 100 < 5) :
    (hit_prefetch_result c cpu set way rnd ⟨r, sig⟩ s).SHCT (c, cpu) sig
      = SAT_INC (s.SHCT (c, cpu) sig) SHCT_MAX := by
  rw [hit_prefetch_result_SHCT, if_pos ⟨hsam, hrnd⟩]
  exact put_shct_same _ _ _ _

theorem miss_result_counter_same (c : CACHE) (cpu set way ip sig : Nat) (type : access_type)
    (s : State) (hsam : is_sample c s set = true) (hsig : new_sig ip type = sig) :
    (miss_result c cpu set way ip type ⟨false, sig⟩ s).SHCT (c, cpu) sig
      = SAT_DEC (s.SHCT (c, cpu) sig) := by
  have h := miss_result_counter c cpu set way ip type ⟨false, sig⟩ s
  rw [hsig] at h
  rw [h, if_pos ⟨hsam, rfl, rfl⟩]

theorem miss_result_counter_reused (c : CACHE) (cpu set way ip sig sig' : Nat)
    (type : access_type) (s : State) (hsig : new_sig ip type = sig') :
    (miss_result c cpu set way ip type ⟨true, sig⟩ s).SHCT (c, cpu) sig'
      = s.SHCT (c, cpu) sig' := by
  have h := miss_result_counter c cpu set way ip type ⟨true, sig⟩ s
  rw [hsig] at h
  rw [h, if_neg (fun hc => absurd hc.2.1 (by simp))]

theorem miss_result_rrpv_sig {c : CACHE} {s : State} {set way : Nat} (cpu ip sig : Nat)
    (type : access_type) (e : SAMPLER_class)
    (hr : lineIdx c set way < (s.rrpv_values c).length) (hsig : new_sig ip type = sig) :
    rrpv_read (miss_result c cpu set way ip type e s) c (lineIdx c set way) =
      some (insertion type ((miss_result c cpu set way ip type e s).SHCT (c, cpu) sig)) := by
  rw [miss_result_rrpv cpu ip type e hr, hsig]

theorem update_defined_after_miss_sig {c : CACHE} {s : State} {set way : Nat}
    (cpu ip sig : Nat) (type : access_type) {e : SAMPLER_class}
    (hok : update_defined c s set way e) (hsig : new_sig ip type = sig) :
    update_defined c (miss_result c cpu set way ip type e s) set way ⟨false, sig⟩ := by
  have h := update_defined_after_miss cpu ip type hok
  rwa [hsig] at h

theorem new_sig_example_zero : new_sig 0 access_type.PREFETCH = 1 := by decide

/-- C13, as stated, fails.  At the end of the second example run, a reachable state, the
sampler entry of line `(1, 1)` has `reuse = false`; a load hit on that line leaves it with
`reuse = true`. -/
theorem hit_sets_reuse_counterexample :
    Reachable 1 example_b ∧ is_sample c2 example_b 1 = true ∧
    sampler_read example_b c2 (sampler_loc c2 example_b 1 1) = some ⟨false, 1⟩ ∧
    ∃ s', update_replacement_state c2 0 1 1 0 access_type.LOAD 1 0 example_b = some s' ∧
      sampler_read s' c2 (sampler_loc c2 example_b 1 1) = some ⟨true, 1⟩ := by
  have hok := example_b_defined_1
  have hsam := example_b_holds.1
  have he := (hok.2.2 hsam).1
  exact ⟨example_b_reachable, hsam, he, _,
    update_hit_demand_eq 0 0 0 hok (by decide) (by decide) example_b_holds.2.2.2.2.2.2.2.1
      (by decide),
    hit_demand_result_sets_reuse 0 1 true he hsam⟩

/-- C18, as stated, fails.  At the end of the second example run, a reachable state, the
sampler entry of line `(1, 0)` has `reuse = true`, the line is tagged as prefetched and the
counter of its signature is 1; a `PREFETCH` hit with draw 0 raises that counter to 2. -/
theorem prefetch_hit_trains_again_counterexample :
    Reachable 1 example_b ∧ is_sample c2 example_b 1 = true ∧
    sampler_read example_b c2 (sampler_loc c2 example_b 1 0) = some ⟨true, 1⟩ ∧
    prefetch_read example_b c2 (lineIdx c2 1 0) = some true ∧
    example_b.SHCT (c2, 0) 1 = 1 ∧
    ∃ s', update_replacement_state c2 0 1 0 0 access_type.PREFETCH 1 0 example_b = some s' ∧
      s'.SHCT (c2, 0) 1 = 2 ∧ s'.SHCT ≠ example_b.SHCT := by
  have hok := example_b_defined_0
  have hsam := example_b_holds.1
  have he := (hok.2.2 hsam).1
  have hpf := example_b_holds.2.2.2.2.2.2.1
  have hctr := example_b_holds.2.2.2.2.2.1
  have hctr' : (hit_prefetch_result c2 0 1 0 0 ⟨true, 1⟩ example_b).SHCT (c2, 0) 1 = 2 := by
    rw [hit_prefetch_result_counter c2 0 1 0 0 1 true example_b hsam (by decide), hctr]
    decide
  refine ⟨example_b_reachable, hsam, he, hpf, hctr, _,
    update_hit_prefetch_eq 0 0 0 hok (by decide) hpf, hctr', ?_⟩
  intro heq
  have h2 := congrFun (congrFun heq (c2, 0)) 1
  rw [hctr', hctr] at h2
  exact absurd h2 (by decide)

/-- C20. The insertion prediction reads the counter after the retirement decrement.  In a
reachable state whose sampler entry for line `(1, 0)` is `{6, reuse = false}` and whose counter
of signature 6 is `SHCT_MAX`, a load miss with that signature inserts the line at
`maxRRPV - 1`; in a reachable state whose entry for line `(1, 1)` is `{1, reuse = false}` and
whose counter of signature 1 is 1, a prefetch miss with that signature inserts the line at
`maxRRPV`. -/
theorem insertion_reads_retired_counter :
    (∃ s s', Reachable 1 s ∧ is_sample c2 s 1 = true ∧
      sampler_read s c2 (sampler_loc c2 s 1 0) = some ⟨false, 6⟩ ∧
      new_sig 3 access_type.LOAD = 6 ∧ s.SHCT (c2, 0) 6 = SHCT_MAX ∧
      update_replacement_state c2 0 1 0 3 access_type.LOAD 0 0 s = some s' ∧
      rrpv_read s' c2 (lineIdx c2 1 0) = some (maxRRPV - 1)) ∧
    (∃ s s', Reachable 1 s ∧ is_sample c2 s 1 = true ∧
      sampler_read s c2 (sampler_loc c2 s 1 1) = some ⟨false, 1⟩ ∧
      new_sig 0 access_type.PREFETCH = 1 ∧ s.SHCT (c2, 0) 1 = 1 ∧
      update_replacement_state c2 0 1 1 0 access_type.PREFETCH 0 0 s = some s' ∧
      rrpv_read s' c2 (lineIdx c2 1 1) = some maxRRPV) := by
  constructor
  · have hok := example_final_defined
    have hfacts := example_final_facts
    have hok' := update_defined_after_miss_sig 0 3 6 access_type.LOAD hok new_sig_example_load
    have hsam' : is_sample c2
        (miss_result c2 0 1 0 3 access_type.LOAD ⟨true, 6⟩ example_final) 1 = true := by
      rw [miss_result_is_sample]; exact hfacts.2.2.1
    have hctr' : (miss_result c2 0 1 0 3 access_type.LOAD ⟨true, 6⟩ example_final).SHCT
        (c2, 0) 6 = SHCT_MAX := by
      rw [miss_result_counter_reused c2 0 1 0 3 6 6 access_type.LOAD example_final
        new_sig_example_load]
      exact hfacts.2.1
    have hreach : Reachable 1
        (miss_result c2 0 1 0 3 access_type.LOAD ⟨true, 6⟩ example_final) :=
      Reachable.update c2 0 1 0 3 access_type.LOAD 0 0 _ _ example_final_reachable
        (by decide) (by decide) (update_miss_eq 0 3 0 hok (by decide))
    refine ⟨_, _, hreach, hsam', (hok'.2.2 hsam').1, new_sig_example_load, hctr',
      update_miss_eq 0 3 0 hok' (by decide), ?_⟩
    rw [miss_result_rrpv_sig 0 3 6 access_type.LOAD ⟨false, 6⟩ hok'.1 new_sig_example_load,
      miss_result_counter_same c2 0 1 0 3 6 access_type.LOAD _ hsam' new_sig_example_load,
      hctr']
    exact congrArg some (by decide)
  · have hok := example_b_defined_1
    have hsam := example_b_holds.1
    have hctr := example_b_holds.2.2.2.2.2.1
    refine ⟨_, _, example_b_reachable, hsam, (hok.2.2 hsam).1, new_sig_example_zero, hctr,
      update_miss_eq 0 0 0 hok (by decide), ?_⟩
    rw [miss_result_rrpv_sig 0 0 1 access_type.PREFETCH ⟨false, 1⟩ hok.1 new_sig_example_zero,
      miss_result_counter_same c2 0 1 1 0 1 access_type.PREFETCH _ hsam new_sig_example_zero,
      hctr]
    exact congrArg some (by decide)

/-- The statement of the amended C15 at the instruction pointers 8193 and 3. -/
theorem tagged_values_disjoint_witness :
    use_PC 8193 access_type.PREFETCH ≠ use_PC 3 access_type.LOAD ∧
    use_PC 8193 access_type.PREFETCH % 2 = 1 ∧ use_PC 3 access_type.LOAD % 2 = 0 ∧
    (new_sig 8193 access_type.PREFETCH = new_sig 3 access_type.LOAD ↔
      use_PC 8193 access_type.PREFETCH % SHCT_PRIME = use_PC 3 access_type.LOAD % SHCT_PRIME) :=
  tagged_values_disjoint 8193 3 access_type.LOAD (by decide)

/-- The statement of C16 for a load hit on line `(0, 2)` of `ex_state`. -/
theorem unsampled_update_frame_witness :
    is_sample c1 ex_state 0 = false ∧
    ∃ s', update_replacement_state c1 0 0 2 3 access_type.LOAD 1 0 ex_state = some s' ∧
      s'.sampler = ex_state.sampler ∧ s'.SHCT = ex_state.SHCT ∧
      s'.rand_sets = ex_state.rand_sets ∧
      ∀ c' i, c' ≠ c1 ∨ i ≠ lineIdx c1 0 2 →
        rrpv_read s' c' i = rrpv_read ex_state c' i ∧
        prefetch_read s' c' i = prefetch_read ex_state c' i :=
  ⟨by decide,
    unsampled_update_frame c1 0 0 2 3 1 0 access_type.LOAD ex_state (by decide) (by decide)
      (by decide)⟩

/-- The statement of C17 for a load miss on line `(1, 0)` of `ex_state`. -/
theorem miss_retires_entry_witness :
    ex_state.SHCT (c1, 0) 6 = 7 ∧
    ∃ s', update_replacement_state c1 0 1 0 3 access_type.LOAD 0 0 ex_state = some s' ∧
      ((SAMPLER_class.mk false 6).reuse = false →
        s'.SHCT (c1, 0) (SAMPLER_class.mk false 6).signature
          = ex_state.SHCT (c1, 0) (SAMPLER_class.mk false 6).signature - 1 ∧
        ∀ key sig, key ≠ (c1, 0) ∨ sig ≠ (SAMPLER_class.mk false 6).signature →
          s'.SHCT key sig = ex_state.SHCT key sig) ∧
      ((SAMPLER_class.mk false 6).reuse = true → s'.SHCT = ex_state.SHCT) ∧
      sampler_read s' c1 (sampler_loc c1 ex_state 1 0)
        = some ⟨false, new_sig 3 access_type.LOAD⟩ ∧
      new_sig 3 access_type.LOAD =
        ((3 * 2) % 2 ^ 64 + (if access_type.LOAD = access_type.PREFETCH then 1 else 0))
          % SHCT_PRIME ∧
      ∀ c' j, c' ≠ c1 ∨ j ≠ sampler_loc c1 ex_state 1 0 →
        sampler_read s' c' j = sampler_read ex_state c' j :=
  ⟨by decide,
    miss_retires_entry c1 0 1 0 3 0 0 access_type.LOAD ⟨false, 6⟩ ex_state
      ⟨by decide, by decide, fun _ => ⟨rfl, by decide⟩⟩ (by decide) (by decide) (by decide)⟩

/-- The statement of the amended C13 for a load hit on line `(1, 0)` of `ex_state`. -/
theorem hit_keeps_signature_witness :
    ∃ s' e', update_replacement_state c1 0 1 0 3 access_type.LOAD 1 0 ex_state = some s' ∧
      sampler_read s' c1 (sampler_loc c1 ex_state 1 0) = some e' ∧
      e'.signature = (SAMPLER_class.mk false 6).signature ∧
      (e'.reuse = (SAMPLER_class.mk false 6).reuse ∨ e'.reuse = true) ∧
      ∀ c' j, c' ≠ c1 ∨ j ≠ sampler_loc c1 ex_state 1 0 →
        sampler_read s' c' j = sampler_read ex_state c' j :=
  hit_keeps_signature c1 0 1 0 3 1 0 access_type.LOAD ⟨false, 6⟩ ex_state
    ⟨by decide, by decide, fun _ => ⟨rfl, by decide⟩⟩ (by decide) (by decide) (by decide)

/-- The statement of the amended C18 for a load hit on line `(1, 1)` of `ex_state`. -/
theorem reuse_stops_training_witness :
    ∃ s', update_replacement_state c1 0 1 1 3 access_type.LOAD 1 0 ex_state = some s' ∧
      (¬ (access_type.LOAD = access_type.PREFETCH ∧ false = true ∧ 0 % 100 < 5) →
        s'.SHCT = ex_state.SHCT) ∧
      (access_type.LOAD = access_type.PREFETCH ∧ false = true ∧ 0 % 100 < 5 →
        s'.SHCT (c1, 0) (SAMPLER_class.mk true 6).signature
          = SAT_INC (ex_state.SHCT (c1, 0) (SAMPLER_class.mk true 6).signature) SHCT_MAX ∧
        ∀ key sig, key ≠ (c1, 0) ∨ sig ≠ (SAMPLER_class.mk true 6).signature →
          s'.SHCT key sig = ex_state.SHCT key sig) :=
  reuse_stops_training c1 0 1 1 3 1 0 access_type.LOAD ⟨true, 6⟩ false ex_state
    ⟨by decide, by decide, fun _ => ⟨rfl, by decide⟩⟩ (by decide) rfl (by decide) (by decide)
    (by decide)

/-- The statement of C19 at the end of the example run. -/
theorem shct_index_in_table_witness :
    Reachable 1 example_final ∧
    (∀ c loc e, sampler_read example_final c loc = some e → e.signature < SHCT_PRIME) ∧
    (∀ c cpu set way sig, is_sample c example_final set = true →
      stored_sig c example_final set way = some sig →
      sig < SHCT_SIZE ∧
        shct_read example_final (c, cpu) sig = some (example_final.SHCT (c, cpu) sig)) ∧
    (∀ c cpu ip type, new_sig ip type < SHCT_SIZE ∧
      shct_read example_final (c, cpu) (new_sig ip type)
        = some (example_final.SHCT (c, cpu) (new_sig ip type))) :=
  ⟨example_final_reachable, shct_index_in_table 1 example_final example_final_reachable⟩

end ShipPP
